import Mathlib

/-!
Verification of the auction & escrow settlement engine of
`src/handlers/auction.py` (a Telegram collectible-trading bot).

Shallow embedding conventions:

* ISO-8601 timestamps (`start_iso`, `end_iso`, `bid_iso`) are modelled as
  `Nat` instants; the strings the code writes compare lexicographically
  exactly as the instants compare chronologically, and `datetime.now()`
  within one handler invocation is modelled as a single instant `t`.
* The SQLite tables become fields of one record `Db`:
  - `auctions` (table `auctions`, rows addressed by `id` = list index,
    mirroring the AUTOINCREMENT primary key);
  - per-auction bid rows of table `auction_bids` are kept, in insertion
    (= `bid_iso`) order, in the `bids` field of each auction;
  - `user_waifus` becomes a function `Fin U → Fin W → Nat`; an absent row
    is the value `0` (the code deletes rows when the amount would reach 0
    and treats absent and non-positive rows alike when checking ownership);
  - `waifu_cards` only matters through row existence, a `Fin W → Bool`.
* User ids and card ids are drawn from finite universes `Fin U`, `Fin W`
  so that whole-system sums (conservation statements) are finite.
  Telegram user ids are positive integers, so Python truthiness tests on a
  bidder id (`if current and curr_bidder`) are modelled as the existence
  test on the fetched row.
* The wallet lives in `database.py`, which is not part of the handler
  sources; it is modelled from the spec's wallet contract (see
  `add_crystals`).
* Each Telegram message handler first calls
  `finalize_expired_auctions_sync`; that entry sweep is the separate
  `finalize_expired_auctions` operation of this file, and handler
  invocations are compositions of two operations of the trace semantics
  below.  The definitions named after the handlers embed the handler body
  after that entry sweep (the code cited by the claims); the sweep that the
  expiry branch of `/bid` itself performs (line 283 of the source) is part
  of `bid_handler` here because it sits inside the cited logic.
-/

/-- Timing constant `BID_TIMEOUT_SECONDS = 10`: the fixed auction window, used both at
creation (`end = start + timedelta(seconds=BID_TIMEOUT_SECONDS)`) and by
the anti-snipe extension of every accepted bid. -/
def BID_TIMEOUT_SECONDS : Nat := 10

/-- A row of the `auctions` table (the waifu snapshot columns
`waifu_name`, …, `waifu_media_file_id` are presentation-only and omitted).
`active = true` models `status = 'active'`, `active = false` models
`status = 'finished'`. `transferred` is the settlement idempotence flag. -/
structure Auction (U W : Nat) where
  waifu_id : Fin W
  seller_id : Fin U
  start_iso : Nat
  end_iso : Nat
  min_price : Nat
  active : Bool
  winner_id : Option (Fin U)
  final_price : Option Nat
  transferred : Bool
  /-- the rows of `auction_bids` with this `auction_id`, in insertion
  order: `(bidder_id, amount)` -/
  bids : List (Fin U × Nat)
  deriving DecidableEq, Repr

/-- The persistent state touched by the auction engine. -/
structure Db (U W : Nat) where
  auctions : List (Auction U W)
  /-- Modelled from the spec: the wallet collaborator (`database.py` is
  not among the handler sources).  The engine only uses the contract
  `Balance(user)` (the `total` field of `get_crystals`) and
  `Credit`/`Debit` (`add_crystals(user, given=±n)`), so a wallet is one
  integer balance per user. -/
  crystals : Fin U → Int
  /-- table `user_waifus`: amount of each card held by each user
  (absent row = 0). -/
  user_waifus : Fin U → Fin W → Nat
  /-- table `waifu_cards`: whether the card row exists. -/
  waifu_cards : Fin W → Bool

/-- Modelled from the spec: `db.add_crystals(user, given=d)` adds `d`
(possibly negative: a debit) to the user's balance. -/
def add_crystals {U : Nat} (bal : Fin U → Int) (u : Fin U) (given : Int) :
    Fin U → Int :=
  Function.update bal u (bal u + given)

/-- Write amount `n` into the `user_waifus` cell `(u, w)`. -/
def setInv {U W : Nat} (f : Fin U → Fin W → Nat) (u : Fin U) (w : Fin W)
    (n : Nat) : Fin U → Fin W → Nat :=
  Function.update f u (Function.update (f u) w n)

/-- Source `UPDATE user_waifus SET amount = amount + 1` /
`INSERT … VALUES (…, 1)` on an absent (= 0) row: both add one copy. -/
def bumpInv {U W : Nat} (f : Fin U → Fin W → Nat) (u : Fin U) (w : Fin W) :
    Fin U → Fin W → Nat :=
  setInv f u w (f u w + 1)

/-- Source `UPDATE user_waifus SET amount = amount - 1` / `DELETE` when the
amount is 1 (an absent row is 0, so both are the decrement). -/
def decInv {U W : Nat} (f : Fin U → Fin W → Nat) (u : Fin U) (w : Fin W) :
    Fin U → Fin W → Nat :=
  setInv f u w (f u w - 1)

/-- Query `SELECT bidder_id, amount FROM auction_bids WHERE auction_id = ?
ORDER BY amount DESC, bid_iso ASC LIMIT 1`: the bid with the largest
amount; on equal amounts the earliest-inserted row wins (the head of the
list beats any later bid of the same amount). -/
def highest_bid {U : Nat} : List (Fin U × Nat) → Option (Fin U × Nat)
  | [] => none
  | b :: rest =>
    match highest_bid rest with
    | none => some b
    | some c => if c.2 ≤ b.2 then some b else some c

/-- The amount of the highest bid, 0 when there is none. -/
def top_amount {U : Nat} (l : List (Fin U × Nat)) : Nat :=
  match highest_bid l with
  | some c => c.2
  | none => 0

/-- Finalization of the single auction `aid` (the body of the per-row loop
of `finalize_expired_auctions`, source lines 89–152).  The loop re-reads
the row and its bids from the live database, so the current state `s` is
consulted. -/
def finalize_one {U W : Nat} (s : Db U W) (aid : Nat) : Db U W :=
  match s.auctions[aid]? with
  | none => s
  | some a =>
    match highest_bid a.bids with
    | none =>
      -- no bids: return the card to the seller, mark finished+transferred
      { s with
        user_waifus := bumpInv s.user_waifus a.seller_id a.waifu_id,
        auctions := s.auctions.set aid { a with active := false, transferred := true } }
    | some top =>
      let winner_id := top.1
      let final_price := top.2
      -- grant: if the winner already has a row, increment it unless the
      -- transferred flag is set; otherwise INSERT a row with amount 1
      -- (the source checks the flag only in the existing-row branch)
      let inv1 :=
        if 0 < s.user_waifus winner_id a.waifu_id then
          if a.transferred then s.user_waifus
          else bumpInv s.user_waifus winner_id a.waifu_id
        else bumpInv s.user_waifus winner_id a.waifu_id
      -- credit the seller if not already transferred
      let bal1 :=
        if a.transferred then s.crystals
        else add_crystals s.crystals a.seller_id (final_price : Int)
      { s with
        user_waifus := inv1,
        crystals := bal1,
        auctions := s.auctions.set aid
          { a with active := false, winner_id := some winner_id,
                   final_price := some final_price, transferred := true } }

/-- The ids selected by
`SELECT id FROM auctions WHERE status = 'active' AND end_iso <= now`
(`fetchall` takes a snapshot before the loop runs). -/
def expired_ids {U W : Nat} (s : Db U W) (t : Nat) : List Nat :=
  (List.range s.auctions.length).filter fun i =>
    match s.auctions[i]? with
    | some a => a.active && decide (a.end_iso ≤ t)
    | none => false

/-- Sweep `finalize_expired_auctions` (source lines 80–159): finalize every
active auction whose deadline has passed, one `finalize_one` per selected
row. -/
def finalize_expired_auctions {U W : Nat} (s : Db U W) (t : Nat) : Db U W :=
  (expired_ids s t).foldl finalize_one s

/-- Result of the `/auction` command's engine logic. -/
inductive CreateResult where
  | ok (auction_id : Nat)
  | not_owned
  /-- the waifu snapshot row is missing; the compensating
  `INSERT OR REPLACE` of source line 208 has an unbalanced parenthesis, so
  SQLite raises a syntax error and the handler aborts with the reservation
  already committed -/
  | card_not_found_sql_error
  deriving DecidableEq, Repr

/-- Handler `auction_handler` (source lines 188–224, after the entry sweep and
argument parsing): check ownership, reserve one copy, snapshot the card,
insert the auction row, and hand back `lastrowid`. -/
def auction_handler {U W : Nat} (s : Db U W) (user_id : Fin U)
    (waifu_id : Fin W) (min_price : Nat) (t : Nat) :
    CreateResult × Db U W :=
  if s.user_waifus user_id waifu_id = 0 then (.not_owned, s)
  else
    -- reserve one copy (decrement by 1; amount 1 becomes a deleted row)
    let s1 := { s with user_waifus := decInv s.user_waifus user_id waifu_id }
    if s.waifu_cards waifu_id = false then
      -- the malformed rollback SQL raises before restoring the copy
      (.card_not_found_sql_error, s1)
    else
      let a : Auction U W :=
        { waifu_id := waifu_id, seller_id := user_id, start_iso := t,
          end_iso := t + BID_TIMEOUT_SECONDS, min_price := min_price,
          active := true, winner_id := none, final_price := none,
          transferred := false, bids := [] }
      (.ok s1.auctions.length, { s1 with auctions := s1.auctions ++ [a] })

/-- Result of the `/bid` command's engine logic. -/
inductive BidResult where
  | ok
  | not_found
  | not_active
  | expired
  | insufficient_funds
  /-- the reply states the amount to beat: the current highest bid, or the
  minimum price when there is no bid yet -/
  | too_low (current_min : Nat)
  deriving DecidableEq, Repr

/-- Body of `/bid` on a fetched, active, unexpired auction `a` (source
lines 286–360): check available funds against the offered amount (a leader
raising their own bid counts the escrowed amount as available), validate
against the highest bid or the minimum price, then move funds, append the
bid row and reset the deadline to `now + BID_TIMEOUT_SECONDS`. -/
def bid_core {U W : Nat} (s : Db U W) (user_id : Fin U)
    (auction_id : Nat) (a : Auction U W) (amount : Nat) (t : Nat) :
    BidResult × Db U W :=
  let total := s.crystals user_id
      let current := highest_bid a.bids
      let curr_amount : Nat :=
        match current with
        | some c => c.2
        | none => 0
      let curr_bidder : Option (Fin U) := current.map Prod.fst
      let available : Int :=
        if curr_bidder = some user_id then total + curr_amount else total
      if available < (amount : Int) then (.insufficient_funds, s)
      else
        let reject : Option Nat :=
          match current with
          | some c => if amount ≤ c.2 then some c.2 else none
          | none => if amount < a.min_price then some a.min_price else none
        match reject with
        | some payload => (.too_low payload, s)
        | none =>
          let crystals1 :=
            if curr_bidder = some user_id then
              -- raising their own bid: deduct only the delta
              let delta : Int := (amount : Int) - (curr_amount : Int)
              if 0 < delta then add_crystals s.crystals user_id (-delta)
              else s.crystals
            else
              -- deduct the full amount, refund the previous highest
              -- bidder when one exists (bidder ids are nonzero)
              let c1 := add_crystals s.crystals user_id (-(amount : Int))
              match current with
              | some prev => add_crystals c1 prev.1 (prev.2 : Int)
              | none => c1
          let a1 :=
            { a with bids := a.bids ++ [(user_id, amount)],
                     end_iso := t + BID_TIMEOUT_SECONDS }
          (.ok, { s with crystals := crystals1,
                         auctions := s.auctions.set auction_id a1 })

/-- Handler `bid_handler` (source lines 272–360, after the entry sweep and
argument parsing): fetch the auction, reject non-active or expired ones
(the expiry branch itself runs the finalization sweep, source line 283),
then run the bidding core `bid_core` on the fetched row. -/
def bid_handler {U W : Nat} (s : Db U W) (user_id : Fin U)
    (auction_id : Nat) (amount : Nat) (t : Nat) : BidResult × Db U W :=
  match s.auctions[auction_id]? with
  | none => (.not_found, s)
  | some a =>
    if a.active = false then (.not_active, s)
    else if a.end_iso ≤ t then (.expired, finalize_expired_auctions s t)
    else bid_core s user_id auction_id a amount t

/-- Result of the manual-claim callback. -/
inductive ClaimResult where
  | not_found
  | not_finished
  | no_winner
  | already_transferred
  | claimed
  deriving DecidableEq, Repr

/-- Callback `auction_claim_cb` (source lines 493–520): manually grant the card to
the winner, gated by the `transferred` flag. -/
def auction_claim_cb {U W : Nat} (s : Db U W) (aid : Nat) :
    ClaimResult × Db U W :=
  match s.auctions[aid]? with
  | none => (.not_found, s)
  | some a =>
    if a.active then (.not_finished, s)
    else
      match a.winner_id with
      | none => (.no_winner, s)
      | some w =>
        if a.transferred then (.already_transferred, s)
        else
          (.claimed,
            { s with
              user_waifus := bumpInv s.user_waifus w a.waifu_id,
              auctions := s.auctions.set aid { a with transferred := true } })

/-- Result of the manual-credit callback. -/
inductive CreditResult where
  | not_found
  | not_finished
  | already
  | no_final_price
  | credited
  deriving DecidableEq, Repr

/-- Callback `auction_credit_cb` (source lines 523–543): manually credit the seller
with the final price, gated by the same `transferred` flag (checked before
the final-price check; a `final_price` of `NULL` or `0` is falsy). -/
def auction_credit_cb {U W : Nat} (s : Db U W) (aid : Nat) :
    CreditResult × Db U W :=
  match s.auctions[aid]? with
  | none => (.not_found, s)
  | some a =>
    if a.active then (.not_finished, s)
    else if a.transferred then (.already, s)
    else
      match a.final_price with
      | none => (.no_final_price, s)
      | some p =>
        if p = 0 then (.no_final_price, s)
        else
          (.credited,
            { s with
              crystals := add_crystals s.crystals a.seller_id (p : Int),
              auctions := s.auctions.set aid { a with transferred := true } })

/-- The engine operations of the spec's API surface; each arrives with the
`datetime.now()` instant of its invocation. -/
inductive Op (U W : Nat) where
  | create (seller : Fin U) (item : Fin W) (min_price : Nat)
  | bid (auction_id : Nat) (bidder : Fin U) (amount : Nat)
  | sweep
  | claim (auction_id : Nat)
  | credit (auction_id : Nat)

/-- Apply one timed operation to the database state. -/
def applyOp {U W : Nat} (s : Db U W) : Nat × Op U W → Db U W
  | (t, .create u w mp) => (auction_handler s u w mp t).2
  | (t, .bid aid u amt) => (bid_handler s u aid amt t).2
  | (t, .sweep) => finalize_expired_auctions s t
  | (_, .claim aid) => (auction_claim_cb s aid).2
  | (_, .credit aid) => (auction_credit_cb s aid).2

/-- Run a sequence of timed engine operations. -/
def run {U W : Nat} (s : Db U W) (ops : List (Nat × Op U W)) : Db U W :=
  ops.foldl applyOp s

/-- Strictly increasing bid amounts in insertion order (the ledger
invariant of the spec's data model). -/
def StrictBids {U : Nat} (l : List (Fin U × Nat)) : Prop :=
  l.Pairwise fun x y => x.2 < y.2

/-- Well-formedness of a single auction row: the `transferred` flag is
set exactly on finished rows (`finalize_one` sets `status = 'finished'`
and `transferred = 1` in one `UPDATE`), and the bid ledger is strictly
increasing. -/
def WfA {U W : Nat} (a : Auction U W) : Prop :=
  (a.active = true → a.transferred = false) ∧
  (a.active = false → a.transferred = true) ∧
  StrictBids a.bids

/-- Well-formedness of the whole database. -/
def Wf {U W : Nat} (s : Db U W) : Prop :=
  ∀ a ∈ s.auctions, WfA a

/-- Sum of `f` over a list (integer-valued, so removals subtract). -/
def sumBy {α : Type} (l : List α) (f : α → Int) : Int :=
  (l.map f).sum

/-- Sum of every wallet balance. -/
def totalCrystals {U W : Nat} (s : Db U W) : Int :=
  ∑ u, s.crystals u

/-- Currently escrowed funds: the leading bid amount of every active
auction (that money was debited from the leading bidder at bid time and
belongs to no wallet). -/
def escrowSum {U W : Nat} (s : Db U W) : Int :=
  sumBy s.auctions fun a => if a.active then (top_amount a.bids : Int) else 0

/-- Conserved quantity of claim C2: wallets plus escrow. -/
def totalFunds {U W : Nat} (s : Db U W) : Int :=
  totalCrystals s + escrowSum s

/-- Copies of card `w` sitting in user inventories. -/
def heldCount {U W : Nat} (s : Db U W) (w : Fin W) : Int :=
  ∑ u, (s.user_waifus u w : Int)

/-- Copies of card `w` in flight: one per auction of `w` whose settlement
transfer has not happened yet. -/
def inFlight {U W : Nat} (s : Db U W) (w : Fin W) : Int :=
  sumBy s.auctions fun a =>
    if a.waifu_id = w ∧ a.transferred = false then 1 else 0

/-- Conserved quantity of claim C3: copies held plus copies in flight. -/
def itemTotal {U W : Nat} (s : Db U W) (w : Fin W) : Int :=
  heldCount s w + inFlight s w

/-- Clock bound on reachable states: every active auction's deadline is at
most one full window after the instant `c` of the last executed operation
(creation and every accepted bid set `end_iso` to their own instant plus
`BID_TIMEOUT_SECONDS`, and nothing else raises it). -/
def EndBound {U W : Nat} (s : Db U W) (c : Nat) : Prop :=
  ∀ a ∈ s.auctions, a.active = true → a.end_iso ≤ c + BID_TIMEOUT_SECONDS

/-! Concrete states used by witnesses and counterexamples. -/

/-- Two users (0 the seller, 1 a buyer), one card; both start with 100
crystals and the seller holds one copy of the card. -/
def exDb0 : Db 2 1 :=
  { auctions := [], crystals := ![100, 100],
    user_waifus := fun u _ => if u = 0 then 1 else 0,
    waifu_cards := fun _ => true }

/-- Half-applied settlement: the auction is finished with winner 1 at
price 100 but `transferred = 0` — effect (a) (grant) and effect (b)
(seller credit) are both still pending. -/
def exHalf : Db 2 1 :=
  { auctions := [{ waifu_id := 0, seller_id := 0, start_iso := 0,
                   end_iso := 5, min_price := 50, active := false,
                   winner_id := some 1, final_price := some 100,
                   transferred := false, bids := [(1, 100)] }],
    crystals := ![0, 0], user_waifus := fun _ _ => 0,
    waifu_cards := fun _ => true }

/-- One user owning one copy of a card whose `waifu_cards` row is missing
(the failing input of the creation rollback slip). -/
def exBug : Db 1 1 :=
  { auctions := [], crystals := ![0],
    user_waifus := fun _ _ => 1, waifu_cards := fun _ => false }

/-- One user, two cards; the user owns one copy of card 1, whose
`waifu_cards` row is missing. -/
def exBug2 : Db 1 2 :=
  { auctions := [], crystals := ![0],
    user_waifus := fun _ w => if w = 1 then 1 else 0,
    waifu_cards := fun w => w = 0 }

/-- An active auction row: seller 0, min price 50, deadline 100, no bids. -/
def exActiveA : Auction 2 1 :=
  { waifu_id := 0, seller_id := 0, start_iso := 0, end_iso := 100,
    min_price := 50, active := true, winner_id := none,
    final_price := none, transferred := false, bids := [] }

/-- An active auction (seller 0, min price 50, deadline 100) with no bids;
every wallet is empty. -/
def exActive : Db 2 1 :=
  { auctions := [exActiveA], crystals := ![0, 0],
    user_waifus := fun _ _ => 0, waifu_cards := fun _ => true }

/-- An expired active auction row: seller 0, deadline 5, led by user 1
at 50. -/
def exLedA : Auction 3 1 :=
  { waifu_id := 0, seller_id := 0, start_iso := 0, end_iso := 5,
    min_price := 10, active := true, winner_id := none,
    final_price := none, transferred := false, bids := [(1, 50)] }

/-- An already-expired active auction (deadline 5) led by user 1 at 50;
the 50 are escrowed, all wallets empty. -/
def exLed : Db 3 1 :=
  { auctions := [exLedA], crystals := ![0, 0, 0],
    user_waifus := fun _ _ => 0, waifu_cards := fun _ => true }

/-- A live auction row: seller 0, deadline 100, led by user 1 at 50. -/
def exLiveA : Auction 3 1 :=
  { waifu_id := 0, seller_id := 0, start_iso := 0, end_iso := 100,
    min_price := 10, active := true, winner_id := none,
    final_price := none, transferred := false, bids := [(1, 50)] }

/-- A live auction (deadline 100) led by user 1 at 50; user 2 has 60
crystals and can overbid. -/
def exLive : Db 3 1 :=
  { auctions := [exLiveA], crystals := ![0, 0, 60],
    user_waifus := fun _ _ => 0, waifu_cards := fun _ => true }

/-- An expired active auction with a winning bid (user 1 at 70), used to
exercise a complete settlement run. -/
def exExpired : Db 2 1 :=
  { auctions := [{ waifu_id := 0, seller_id := 0, start_iso := 0,
                   end_iso := 5, min_price := 50, active := true,
                   winner_id := none, final_price := none,
                   transferred := false, bids := [(1, 70)] }],
    crystals := ![0, 0], user_waifus := fun _ _ => 0,
    waifu_cards := fun _ => true }

instance {U W : Nat} : DecidableEq (Db U W) := fun s1 s2 =>
  decidable_of_iff
    (s1.auctions = s2.auctions ∧ s1.crystals = s2.crystals ∧
      s1.user_waifus = s2.user_waifus ∧ s1.waifu_cards = s2.waifu_cards)
    (by cases s1; cases s2; simp)

instance {U W : Nat} (a : Auction U W) : Decidable (WfA a) := by
  unfold WfA StrictBids; infer_instance

instance {U W : Nat} (s : Db U W) : Decidable (Wf s) := by
  unfold Wf; infer_instance

instance {U W : Nat} (s : Db U W) (c : Nat) : Decidable (EndBound s c) := by
  unfold EndBound; infer_instance

/-! Basic facts about the highest-bid query. -/

theorem highest_bid_eq_none {U : Nat} {l : List (Fin U × Nat)} :
    highest_bid l = none ↔ l = [] := by
  cases l with
  | nil => simp [highest_bid]
  | cons b rest =>
    simp only [highest_bid]
    cases highest_bid rest with
    | none => simp
    | some c => by_cases h : c.2 ≤ b.2 <;> simp [h]

theorem top_amount_nil {U : Nat} : top_amount ([] : List (Fin U × Nat)) = 0 := rfl

theorem top_amount_cons {U : Nat} (b : Fin U × Nat) (l : List (Fin U × Nat)) :
    top_amount (b :: l) = max b.2 (top_amount l) := by
  simp only [top_amount, highest_bid]
  cases h : highest_bid l with
  | none => simp [top_amount, h]
  | some c =>
    by_cases hc : c.2 ≤ b.2 <;> simp [hc] <;> omega

theorem le_top_amount {U : Nat} {l : List (Fin U × Nat)} {b : Fin U × Nat}
    (hb : b ∈ l) : b.2 ≤ top_amount l := by
  induction l with
  | nil => cases hb
  | cons c rest ih =>
    rw [top_amount_cons]
    rcases List.mem_cons.mp hb with h | h
    · subst h; exact Nat.le_max_left ..
    · exact le_trans (ih h) (Nat.le_max_right ..)

theorem highest_bid_append_gt {U : Nat} {l : List (Fin U × Nat)}
    {u : Fin U} {amt : Nat} (h : top_amount l < amt) :
    highest_bid (l ++ [(u, amt)]) = some (u, amt) := by
  induction l with
  | nil => rfl
  | cons c rest ih =>
    rw [top_amount_cons] at h
    have hrest : top_amount rest < amt := lt_of_le_of_lt (Nat.le_max_right ..) h
    have hc : c.2 < amt := lt_of_le_of_lt (Nat.le_max_left ..) h
    show (match highest_bid (rest ++ [(u, amt)]) with
      | none => some c
      | some d => if d.2 ≤ c.2 then some c else some d) = some (u, amt)
    rw [ih hrest]
    simp [Nat.not_le.mpr hc]

theorem top_amount_append_gt {U : Nat} {l : List (Fin U × Nat)}
    {u : Fin U} {amt : Nat} (h : top_amount l < amt) :
    top_amount (l ++ [(u, amt)]) = amt := by
  simp [top_amount, highest_bid_append_gt h]

theorem highest_bid_amount {U : Nat} {l : List (Fin U × Nat)}
    {c : Fin U × Nat} (h : highest_bid l = some c) : c.2 = top_amount l := by
  simp [top_amount, h]

/-! Sums over wallets, inventories and auction lists. -/

theorem add_crystals_self {U : Nat} (bal : Fin U → Int) (u : Fin U) (d : Int) :
    add_crystals bal u d u = bal u + d := by
  simp [add_crystals]

theorem add_crystals_ne {U : Nat} (bal : Fin U → Int) {u v : Fin U} (d : Int)
    (h : v ≠ u) : add_crystals bal u d v = bal v := by
  simp [add_crystals, Function.update_apply, h]

theorem sum_add_crystals {U : Nat} (bal : Fin U → Int) (u : Fin U) (d : Int) :
    ∑ v, add_crystals bal u d v = (∑ v, bal v) + d := by
  unfold add_crystals
  rw [Finset.sum_update_of_mem (Finset.mem_univ u)]
  rw [← Finset.sum_erase_add _ _ (Finset.mem_univ u)]
  have : Finset.univ \ {u} = (Finset.univ : Finset (Fin U)).erase u := by
    rw [Finset.sdiff_singleton_eq_erase]
  rw [this]
  ring

theorem setInv_apply {U W : Nat} (f : Fin U → Fin W → Nat) (u0 : Fin U)
    (w0 : Fin W) (n : Nat) (u : Fin U) (w : Fin W) :
    setInv f u0 w0 n u w =
      if u = u0 then (if w = w0 then n else f u0 w) else f u w := by
  simp only [setInv, Function.update_apply]
  by_cases hu : u = u0
  · subst hu; simp [Function.update_apply]
  · simp [hu]

theorem sum_setInv {U W : Nat} (f : Fin U → Fin W → Nat) (u0 : Fin U)
    (w0 : Fin W) (n : Nat) (w : Fin W) :
    ∑ u, ((setInv f u0 w0 n) u w : Int) =
      (∑ u, (f u w : Int)) + (if w = w0 then (n : Int) - f u0 w0 else 0) := by
  have hfun : (fun u => ((setInv f u0 w0 n) u w : Int)) =
      Function.update (fun u => (f u w : Int)) u0
        (if w = w0 then (n : Int) else f u0 w) := by
    funext u
    rw [setInv_apply, Function.update_apply]
    by_cases hu : u = u0
    · subst hu; by_cases hw : w = w0 <;> simp [hw]
    · simp [hu]
  calc ∑ u, ((setInv f u0 w0 n) u w : Int)
      = ∑ u, Function.update (fun u => (f u w : Int)) u0
          (if w = w0 then (n : Int) else f u0 w) u := by rw [hfun]
    _ = (if w = w0 then (n : Int) else f u0 w) +
          ∑ u ∈ Finset.univ \ {u0}, (f u w : Int) := by
        rw [Finset.sum_update_of_mem (Finset.mem_univ u0)]
    _ = (∑ u, (f u w : Int)) + (if w = w0 then (n : Int) - f u0 w0 else 0) := by
        rw [Finset.sdiff_singleton_eq_erase,
          ← Finset.sum_erase_add _ _ (Finset.mem_univ u0)]
        by_cases hw : w = w0
        · subst hw; simp; ring
        · simp [hw]

theorem sum_bumpInv {U W : Nat} (f : Fin U → Fin W → Nat) (u0 : Fin U)
    (w0 : Fin W) (w : Fin W) :
    ∑ u, ((bumpInv f u0 w0) u w : Int) =
      (∑ u, (f u w : Int)) + (if w = w0 then 1 else 0) := by
  unfold bumpInv
  rw [sum_setInv]
  by_cases hw : w = w0 <;> simp [hw]

theorem sum_decInv {U W : Nat} (f : Fin U → Fin W → Nat) (u0 : Fin U)
    (w0 : Fin W) (w : Fin W) (h : 0 < f u0 w0) :
    ∑ u, ((decInv f u0 w0) u w : Int) =
      (∑ u, (f u w : Int)) - (if w = w0 then 1 else 0) := by
  unfold decInv
  rw [sum_setInv]
  by_cases hw : w = w0
  · subst hw; simp; omega
  · simp [hw]

theorem sumBy_append {α : Type} (l l2 : List α) (f : α → Int) :
    sumBy (l ++ l2) f = sumBy l f + sumBy l2 f := by
  simp [sumBy]

theorem sumBy_set {α : Type} (f : α → Int) :
    ∀ (l : List α) (i : Nat) (a : α) (h : i < l.length),
      sumBy (l.set i a) f = sumBy l f + f a - f (l.get ⟨i, h⟩)
  | [], i, a, h => by simp at h
  | b :: l, 0, a, _ => by simp [sumBy]; ring
  | b :: l, i + 1, a, h => by
    have hi : i < l.length := by simpa using h
    have ih := sumBy_set f l i a hi
    show sumBy (b :: l.set i a) f = sumBy (b :: l) f + f a - f (l.get ⟨i, hi⟩)
    simp only [sumBy, List.map_cons, List.sum_cons]
    simp only [sumBy] at ih
    rw [ih]
    ring

/-! Small generic list-index helpers. -/

theorem getq_lt {α : Type} {l : List α} {i : Nat} {a : α}
    (h : l[i]? = some a) : i < l.length :=
  (List.getElem?_eq_some.mp h).1

theorem getq_get {α : Type} {l : List α} {i : Nat} {a : α}
    (h : l[i]? = some a) (hl : i < l.length) : l.get ⟨i, hl⟩ = a := by
  rw [List.getElem?_eq_getElem hl] at h
  exact Option.some_injective _ h

theorem mem_of_getq {α : Type} {l : List α} {i : Nat} {a : α}
    (h : l[i]? = some a) : a ∈ l := by
  have hl := getq_lt h
  rw [← getq_get h hl]
  exact List.get_mem l i hl

theorem exists_getq_of_mem {α : Type} {l : List α} {a : α} (ha : a ∈ l) :
    ∃ i : Nat, l[i]? = some a := by
  rcases List.mem_iff_getElem.mp ha with ⟨i, hi, he⟩
  exact ⟨i, by rw [List.getElem?_eq_getElem hi, he]⟩

/-- Index view of database well-formedness. -/
theorem wf_index {U W : Nat} {s : Db U W} :
    Wf s ↔ ∀ (i : Nat) (a : Auction U W), s.auctions[i]? = some a → WfA a := by
  constructor
  · intro hw i a h
    exact hw a (mem_of_getq h)
  · intro h a ha
    rcases exists_getq_of_mem ha with ⟨i, hi⟩
    exact h i a hi

/-! Per-auction finalization: equations and structural facts. -/

theorem finalize_one_eq_missing {U W : Nat} {s : Db U W} {aid : Nat}
    (h : s.auctions[aid]? = none) : finalize_one s aid = s := by
  unfold finalize_one
  rw [h]

theorem finalize_one_eq_unsold {U W : Nat} {s : Db U W} {aid : Nat}
    {a : Auction U W} (h : s.auctions[aid]? = some a)
    (hb : highest_bid a.bids = none) :
    finalize_one s aid =
      { s with
        user_waifus := bumpInv s.user_waifus a.seller_id a.waifu_id,
        auctions := s.auctions.set aid
          { a with active := false, transferred := true } } := by
  unfold finalize_one
  split
  · rename_i hnone
    rw [hnone] at h
    cases h
  · rename_i a2 hsome
    rw [hsome] at h
    injection h with h3
    subst h3
    rw [hb]

theorem finalize_one_eq_sold {U W : Nat} {s : Db U W} {aid : Nat}
    {a : Auction U W} {top : Fin U × Nat} (h : s.auctions[aid]? = some a)
    (hb : highest_bid a.bids = some top) :
    finalize_one s aid =
      { s with
        user_waifus :=
          if 0 < s.user_waifus top.1 a.waifu_id then
            if a.transferred then s.user_waifus
            else bumpInv s.user_waifus top.1 a.waifu_id
          else bumpInv s.user_waifus top.1 a.waifu_id,
        crystals :=
          if a.transferred then s.crystals
          else add_crystals s.crystals a.seller_id (top.2 : Int),
        auctions := s.auctions.set aid
          { a with active := false, winner_id := some top.1,
                   final_price := some top.2, transferred := true } } := by
  unfold finalize_one
  split
  · rename_i hnone
    rw [hnone] at h
    cases h
  · rename_i a2 hsome
    rw [hsome] at h
    injection h with h3
    subst h3
    rw [hb]

theorem finalize_one_cards {U W : Nat} (s : Db U W) (aid : Nat) :
    (finalize_one s aid).waifu_cards = s.waifu_cards := by
  unfold finalize_one
  split
  · rfl
  · split <;> rfl

theorem finalize_one_length {U W : Nat} (s : Db U W) (aid : Nat) :
    (finalize_one s aid).auctions.length = s.auctions.length := by
  unfold finalize_one
  split
  · rfl
  · split <;> simp

theorem finalize_one_get_ne {U W : Nat} (s : Db U W) (aid j : Nat)
    (hj : aid ≠ j) :
    (finalize_one s aid).auctions[j]? = s.auctions[j]? := by
  unfold finalize_one
  split
  · rfl
  · split <;> simp [List.getElem?_set_ne hj]

theorem finalize_one_bids {U W : Nat} (s : Db U W) (aid j : Nat) :
    ((finalize_one s aid).auctions[j]?).map Auction.bids =
      (s.auctions[j]?).map Auction.bids := by
  by_cases hj : aid = j
  · subst hj
    cases ha : s.auctions[aid]? with
    | none => rw [finalize_one_eq_missing ha, ha]
    | some a =>
      have hl := getq_lt ha
      cases hb : highest_bid a.bids with
      | none => rw [finalize_one_eq_unsold ha hb]; simp [List.getElem?_set_self hl, ha]
      | some top => rw [finalize_one_eq_sold ha hb]; simp [List.getElem?_set_self hl, ha]
  · rw [finalize_one_get_ne s aid j hj]

theorem finalize_one_get_self {U W : Nat} (s : Db U W) (aid : Nat)
    (a : Auction U W) (ha : s.auctions[aid]? = some a) :
    ∃ a', (finalize_one s aid).auctions[aid]? = some a' ∧
      a'.active = false ∧ a'.transferred = true ∧ a'.bids = a.bids ∧
      a'.end_iso = a.end_iso ∧ a'.waifu_id = a.waifu_id ∧
      a'.seller_id = a.seller_id ∧ a'.min_price = a.min_price := by
  have hl := getq_lt ha
  cases hb : highest_bid a.bids with
  | none =>
    rw [finalize_one_eq_unsold ha hb]
    exact ⟨{ a with active := false, transferred := true },
      by simp [List.getElem?_set_self hl], rfl, rfl, rfl, rfl, rfl, rfl, rfl⟩
  | some top =>
    rw [finalize_one_eq_sold ha hb]
    refine ⟨{ a with active := false, winner_id := some top.1, final_price := some top.2, transferred := true }, ?_, rfl, rfl, rfl, rfl, rfl, rfl, rfl⟩
    simp [List.getElem?_set_self hl]

theorem finalize_one_wf {U W : Nat} {s : Db U W} (hw : Wf s) (aid : Nat) :
    Wf (finalize_one s aid) := by
  rw [wf_index]
  intro j b hb
  by_cases hj : aid = j
  · subst hj
    cases ha : s.auctions[aid]? with
    | none =>
      rw [finalize_one_eq_missing ha] at hb
      exact (wf_index.mp hw) aid b hb
    | some a =>
      rcases finalize_one_get_self s aid a ha with
        ⟨a', hga, hact, htr, hbids, _, _, _, _⟩
      rw [hga] at hb
      injection hb with hb
      subst hb
      refine ⟨by simp [hact], fun _ => htr, ?_⟩
      unfold StrictBids
      rw [hbids]
      exact ((wf_index.mp hw) aid a ha).2.2
  · rw [finalize_one_get_ne s aid j hj] at hb
    exact (wf_index.mp hw) j b hb

theorem finalize_one_funds {U W : Nat} {s : Db U W} {aid : Nat}
    {a : Auction U W} (ha : s.auctions[aid]? = some a)
    (hact : a.active = true) (htr : a.transferred = false) :
    totalFunds (finalize_one s aid) = totalFunds s := by
  have hl := getq_lt ha
  have hget : s.auctions.get ⟨aid, hl⟩ = a := getq_get ha hl
  cases hb : highest_bid a.bids with
  | none =>
    rw [finalize_one_eq_unsold ha hb]
    unfold totalFunds totalCrystals escrowSum
    rw [sumBy_set _ s.auctions aid _ hl, hget]
    simp [hact, top_amount, hb]
  | some top =>
    rw [finalize_one_eq_sold ha hb]
    unfold totalFunds totalCrystals escrowSum
    rw [sumBy_set _ s.auctions aid _ hl, hget]
    simp [hact, htr, top_amount, hb, sum_add_crystals]

theorem finalize_one_items {U W : Nat} {s : Db U W} {aid : Nat}
    {a : Auction U W} (ha : s.auctions[aid]? = some a)
    (hact : a.active = true) (htr : a.transferred = false) (w : Fin W) :
    itemTotal (finalize_one s aid) w = itemTotal s w := by
  have hl := getq_lt ha
  have hget : s.auctions.get ⟨aid, hl⟩ = a := getq_get ha hl
  cases hb : highest_bid a.bids with
  | none =>
    rw [finalize_one_eq_unsold ha hb]
    unfold itemTotal heldCount inFlight
    rw [sumBy_set _ s.auctions aid _ hl, hget, sum_bumpInv]
    by_cases hww : w = a.waifu_id
    · subst hww
      simp [htr]
    · have hww2 : ¬ a.waifu_id = w := fun h => hww h.symm
      simp [hww, hww2]
  | some top =>
    rw [finalize_one_eq_sold ha hb]
    unfold itemTotal heldCount inFlight
    rw [sumBy_set _ s.auctions aid _ hl, hget]
    have hbump :
        (if 0 < s.user_waifus top.1 a.waifu_id then
          if a.transferred then s.user_waifus
          else bumpInv s.user_waifus top.1 a.waifu_id
        else bumpInv s.user_waifus top.1 a.waifu_id) =
          bumpInv s.user_waifus top.1 a.waifu_id := by
      rw [htr]
      simp
    rw [hbump, sum_bumpInv]
    by_cases hww : w = a.waifu_id
    · subst hww
      simp [htr]
    · have hww2 : ¬ a.waifu_id = w := fun h => hww h.symm
      simp [hww, hww2]

/-- Master specification of the finalization loop over a list of selected
auction ids: every selected id must denote an active auction (the SQL
selection guarantees this) and ids are distinct (they come from a filtered
`range`).  The loop preserves well-formedness, funds, items, cards, row
count and every bid ledger; rows outside the selection are untouched, and
every row still active afterwards was untouched and unselected. -/
theorem finalize_fold_spec {U W : Nat} :
    ∀ (L : List Nat) (s : Db U W),
      Wf s →
      (∀ j ∈ L, ∃ a : Auction U W, s.auctions[j]? = some a ∧ a.active = true) →
      L.Nodup →
      Wf (L.foldl finalize_one s) ∧
      totalFunds (L.foldl finalize_one s) = totalFunds s ∧
      (∀ w, itemTotal (L.foldl finalize_one s) w = itemTotal s w) ∧
      (L.foldl finalize_one s).waifu_cards = s.waifu_cards ∧
      (L.foldl finalize_one s).auctions.length = s.auctions.length ∧
      (∀ (j : Nat), ((L.foldl finalize_one s).auctions[j]?).map Auction.bids =
        (s.auctions[j]?).map Auction.bids) ∧
      (∀ (j : Nat), j ∉ L →
        (L.foldl finalize_one s).auctions[j]? = s.auctions[j]?) ∧
      (∀ (j : Nat) (a' : Auction U W),
        (L.foldl finalize_one s).auctions[j]? = some a' → a'.active = true →
        s.auctions[j]? = some a' ∧ j ∉ L)
  | [], s, hw, _, _ => by
    exact ⟨hw, rfl, fun w => rfl, rfl, rfl, fun j => rfl, fun j _ => rfl,
      fun j a' h ha => ⟨h, by simp⟩⟩
  | i :: L, s, hw, hL, hnd => by
    simp only [List.foldl_cons]
    obtain ⟨a, hai, hact⟩ := hL i (List.mem_cons_self i L)
    have htr : a.transferred = false := (hw a (mem_of_getq hai)).1 hact
    have hw1 : Wf (finalize_one s i) := finalize_one_wf hw i
    have hnd1 : L.Nodup := (List.nodup_cons.mp hnd).2
    have hin : i ∉ L := (List.nodup_cons.mp hnd).1
    have hL1 : ∀ j ∈ L, ∃ a : Auction U W,
        (finalize_one s i).auctions[j]? = some a ∧ a.active = true := by
      intro j hj
      obtain ⟨b, hbj, hbact⟩ := hL j (List.mem_cons_of_mem i hj)
      have hij : i ≠ j := fun h => hin (h ▸ hj)
      refine ⟨b, ?_, hbact⟩
      rw [finalize_one_get_ne s i j hij]
      exact hbj
    obtain ⟨q1, q2, q3, q4, q5, q6, q7, q8⟩ :=
      finalize_fold_spec L (finalize_one s i) hw1 hL1 hnd1
    refine ⟨q1, ?_, ?_, ?_, ?_, ?_, ?_, ?_⟩
    · rw [q2, finalize_one_funds hai hact htr]
    · intro w
      rw [q3 w, finalize_one_items hai hact htr w]
    · rw [q4, finalize_one_cards]
    · rw [q5, finalize_one_length]
    · intro j
      rw [q6 j, finalize_one_bids]
    · intro j hj
      have hij : i ≠ j := fun h => hj (by rw [← h]; exact List.mem_cons_self i L)
      rw [q7 j (fun hjl => hj (List.mem_cons_of_mem i hjl)),
        finalize_one_get_ne s i j hij]
    · intro j a' hja hact'
      obtain ⟨hj1, hj2⟩ := q8 j a' hja hact'
      by_cases hij : i = j
      · subst hij
        obtain ⟨a'', hga, hact'', _⟩ := finalize_one_get_self s i a hai
        rw [hga] at hj1
        injection hj1 with h
        subst h
        rw [hact''] at hact'
        cases hact'
      · rw [finalize_one_get_ne s i j hij] at hj1
        exact ⟨hj1,
          fun h => (List.mem_cons.mp h).elim (fun he => hij he.symm) hj2⟩

theorem expired_ids_mem {U W : Nat} {s : Db U W} {t j : Nat} :
    j ∈ expired_ids s t ↔
      ∃ a : Auction U W,
        s.auctions[j]? = some a ∧ a.active = true ∧ a.end_iso ≤ t := by
  unfold expired_ids
  rw [List.mem_filter, List.mem_range]
  constructor
  · rintro ⟨hj, hcond⟩
    cases ha : s.auctions[j]? with
    | none =>
      rw [ha] at hcond
      cases hcond
    | some a =>
      rw [ha] at hcond
      simp at hcond
      exact ⟨a, rfl, hcond.1, hcond.2⟩
  · rintro ⟨a, ha, hact, hend⟩
    refine ⟨getq_lt ha, ?_⟩
    rw [ha]
    simp [hact, hend]

theorem expired_ids_nodup {U W : Nat} (s : Db U W) (t : Nat) :
    (expired_ids s t).Nodup :=
  List.Nodup.filter _ (List.nodup_range _)

/-- Combined specification of one full sweep from a well-formed state. -/
theorem finalize_spec {U W : Nat} (s : Db U W) (t : Nat) (hw : Wf s) :
    Wf (finalize_expired_auctions s t) ∧
    totalFunds (finalize_expired_auctions s t) = totalFunds s ∧
    (∀ w, itemTotal (finalize_expired_auctions s t) w = itemTotal s w) ∧
    (finalize_expired_auctions s t).waifu_cards = s.waifu_cards ∧
    (finalize_expired_auctions s t).auctions.length = s.auctions.length ∧
    (∀ (j : Nat),
      ((finalize_expired_auctions s t).auctions[j]?).map Auction.bids =
        (s.auctions[j]?).map Auction.bids) ∧
    (∀ (j : Nat) (a' : Auction U W),
      (finalize_expired_auctions s t).auctions[j]? = some a' →
      a'.active = true → s.auctions[j]? = some a' ∧ t < a'.end_iso) := by
  have hL : ∀ j ∈ expired_ids s t,
      ∃ a : Auction U W, s.auctions[j]? = some a ∧ a.active = true := by
    intro j hj
    obtain ⟨a, ha, hact, _⟩ := expired_ids_mem.mp hj
    exact ⟨a, ha, hact⟩
  obtain ⟨q1, q2, q3, q4, q5, q6, _, q8⟩ :=
    finalize_fold_spec (expired_ids s t) s hw hL (expired_ids_nodup s t)
  refine ⟨q1, q2, q3, q4, q5, q6, ?_⟩
  intro j a' hja hact
  obtain ⟨hj1, hj2⟩ := q8 j a' hja hact
  refine ⟨hj1, ?_⟩
  by_contra hle
  exact hj2 (expired_ids_mem.mpr ⟨a', hj1, hact, by omega⟩)

/-- Re-running the sweep immediately after a complete run selects nothing
and changes nothing. -/
theorem finalize_idem {U W : Nat} (s : Db U W) (t : Nat) (hw : Wf s) :
    finalize_expired_auctions (finalize_expired_auctions s t) t =
      finalize_expired_auctions s t := by
  have hspec := finalize_spec s t hw
  have hempty : expired_ids (finalize_expired_auctions s t) t = [] := by
    rw [List.eq_nil_iff_forall_not_mem]
    intro j hj
    obtain ⟨a, ha, hact, hend⟩ := expired_ids_mem.mp hj
    obtain ⟨_, hlt⟩ := hspec.2.2.2.2.2.2 j a ha hact
    omega
  show (expired_ids (finalize_expired_auctions s t) t).foldl finalize_one
      (finalize_expired_auctions s t) = finalize_expired_auctions s t
  rw [hempty]
  rfl

/-- From any well-formed state the manual-claim callback never changes the
database: an active auction is refused with `not_finished`, and every
finished auction already carries `transferred = 1` (the sweep sets
`status` and `transferred` in the same `UPDATE`). -/
theorem auction_claim_cb_noop {U W : Nat} (s : Db U W) (aid : Nat)
    (hw : Wf s) : (auction_claim_cb s aid).2 = s := by
  unfold auction_claim_cb
  split
  · rfl
  · rename_i a ha
    split
    · rfl
    · rename_i hact
      have hact2 : a.active = false := by
        cases h2 : a.active
        · rfl
        · exact absurd h2 hact
      have htr : a.transferred = true := (hw a (mem_of_getq ha)).2.1 hact2
      split
      · rfl
      · simp [htr]

/-- From any well-formed state the manual-credit callback never changes
the database, for the same reason. -/
theorem auction_credit_cb_noop {U W : Nat} (s : Db U W) (aid : Nat)
    (hw : Wf s) : (auction_credit_cb s aid).2 = s := by
  unfold auction_credit_cb
  split
  · rfl
  · rename_i a ha
    split
    · rfl
    · rename_i hact
      have hact2 : a.active = false := by
        cases h2 : a.active
        · rfl
        · exact absurd h2 hact
      have htr : a.transferred = true := (hw a (mem_of_getq ha)).2.1 hact2
      simp [htr]

/-! Case equations for the bid handler. -/

theorem bid_handler_eq_not_found {U W : Nat} {s : Db U W} {u : Fin U}
    {aid amount t : Nat} (h : s.auctions[aid]? = none) :
    bid_handler s u aid amount t = (.not_found, s) := by
  unfold bid_handler
  rw [h]

theorem bid_handler_eq_not_active {U W : Nat} {s : Db U W} {u : Fin U}
    {aid amount t : Nat} {a : Auction U W} (h : s.auctions[aid]? = some a)
    (hact : a.active = false) :
    bid_handler s u aid amount t = (.not_active, s) := by
  unfold bid_handler
  split
  · rename_i hn
    rw [hn] at h
    cases h
  · rename_i a2 hs
    rw [hs] at h
    injection h with h
    subst h
    rw [if_pos hact]

theorem bid_handler_eq_expired {U W : Nat} {s : Db U W} {u : Fin U}
    {aid amount t : Nat} {a : Auction U W} (h : s.auctions[aid]? = some a)
    (hact : a.active = true) (hexp : a.end_iso ≤ t) :
    bid_handler s u aid amount t = (.expired, finalize_expired_auctions s t) := by
  unfold bid_handler
  split
  · rename_i hn
    rw [hn] at h
    cases h
  · rename_i a2 hs
    rw [hs] at h
    injection h with h
    subst h
    rw [if_neg (by simp [hact]), if_pos hexp]

theorem bid_handler_eq_core {U W : Nat} {s : Db U W} {u : Fin U}
    {aid amount t : Nat} {a : Auction U W} (h : s.auctions[aid]? = some a)
    (hact : a.active = true) (hlive : t < a.end_iso) :
    bid_handler s u aid amount t = bid_core s u aid a amount t := by
  unfold bid_handler
  split
  · rename_i hn
    rw [hn] at h
    cases h
  · rename_i a2 hs
    rw [hs] at h
    injection h with h
    subst h
    rw [if_neg (by simp [hact]), if_neg (by omega)]

/-! Case analysis of the bidding core. -/

theorem bid_core_insufficient {U W : Nat} {s : Db U W} {u : Fin U}
    {aid : Nat} {a : Auction U W} {amount t : Nat}
    (hpoor : (if (highest_bid a.bids).map Prod.fst = some u
        then s.crystals u + (top_amount a.bids : Int)
        else s.crystals u) < (amount : Int)) :
    bid_core s u aid a amount t = (.insufficient_funds, s) := by
  cases hcur : highest_bid a.bids with
  | none =>
    simp only [top_amount, hcur] at hpoor
    simp only [bid_core, hcur]
    rw [if_pos hpoor]
  | some c =>
    simp only [top_amount, hcur] at hpoor
    simp only [bid_core, hcur]
    rw [if_pos hpoor]

theorem bid_core_too_low_some {U W : Nat} {s : Db U W} {u : Fin U}
    {aid : Nat} {a : Auction U W} {amount t : Nat} {c : Fin U × Nat}
    (hcur : highest_bid a.bids = some c)
    (hfund : ¬ ((if c.1 = u then s.crystals u + (c.2 : Int)
        else s.crystals u) < (amount : Int)))
    (hlow : amount ≤ c.2) :
    bid_core s u aid a amount t = (.too_low c.2, s) := by
  simp only [bid_core, hcur, Option.map_some', Option.some.injEq]
  rw [if_neg hfund, if_pos hlow]

theorem bid_core_too_low_none {U W : Nat} {s : Db U W} {u : Fin U}
    {aid : Nat} {a : Auction U W} {amount t : Nat}
    (hcur : highest_bid a.bids = none)
    (hfund : ¬ (s.crystals u < (amount : Int)))
    (hlow : amount < a.min_price) :
    bid_core s u aid a amount t = (.too_low a.min_price, s) := by
  simp only [bid_core, hcur, Option.map_none']
  rw [if_neg (by simpa using hfund), if_pos hlow]

theorem bid_core_accept_self {U W : Nat} {s : Db U W} {u : Fin U}
    {aid : Nat} {a : Auction U W} {amount t : Nat} {c : Fin U × Nat}
    (hcur : highest_bid a.bids = some c) (hc : c.1 = u)
    (hfund : ¬ (s.crystals u + (c.2 : Int) < (amount : Int)))
    (hhigh : c.2 < amount) :
    bid_core s u aid a amount t =
      (.ok, { s with
        crystals := add_crystals s.crystals u (-((amount : Int) - (c.2 : Int))),
        auctions := s.auctions.set aid
          { a with bids := a.bids ++ [(u, amount)],
                   end_iso := t + BID_TIMEOUT_SECONDS } }) := by
  simp only [bid_core, hcur, Option.map_some', Option.some.injEq, hc]
  rw [if_neg (by simpa using hfund), if_neg (by omega : ¬ amount ≤ c.2)]
  simp only [if_true]
  rw [if_pos (by omega : (0 : Int) < (amount : Int) - (c.2 : Int))]

theorem bid_core_accept_other {U W : Nat} {s : Db U W} {u : Fin U}
    {aid : Nat} {a : Auction U W} {amount t : Nat} {c : Fin U × Nat}
    (hcur : highest_bid a.bids = some c) (hc : ¬ c.1 = u)
    (hfund : ¬ (s.crystals u < (amount : Int)))
    (hhigh : c.2 < amount) :
    bid_core s u aid a amount t =
      (.ok, { s with
        crystals := add_crystals
          (add_crystals s.crystals u (-(amount : Int))) c.1 (c.2 : Int),
        auctions := s.auctions.set aid
          { a with bids := a.bids ++ [(u, amount)],
                   end_iso := t + BID_TIMEOUT_SECONDS } }) := by
  simp only [bid_core, hcur, Option.map_some', Option.some.injEq]
  rw [if_neg hc, if_neg (by simpa using hfund),
    if_neg (by omega : ¬ amount ≤ c.2), if_neg hc]

theorem bid_core_accept_none {U W : Nat} {s : Db U W} {u : Fin U}
    {aid : Nat} {a : Auction U W} {amount t : Nat}
    (hcur : highest_bid a.bids = none)
    (hfund : ¬ (s.crystals u < (amount : Int)))
    (hmin : a.min_price ≤ amount) :
    bid_core s u aid a amount t =
      (.ok, { s with
        crystals := add_crystals s.crystals u (-(amount : Int)),
        auctions := s.auctions.set aid
          { a with bids := a.bids ++ [(u, amount)],
                   end_iso := t + BID_TIMEOUT_SECONDS } }) := by
  simp only [bid_core, hcur, Option.map_none']
  rw [if_neg (by simpa using hfund), if_neg (by omega : ¬ amount < a.min_price)]
  rw [if_neg (show ¬ (none : Option (Fin U)) = some u by simp)]

theorem bid_core_ok_inv {U W : Nat} {s : Db U W} {u : Fin U}
    {aid : Nat} {a : Auction U W} {amount t : Nat}
    (h : (bid_core s u aid a amount t).1 = .ok) :
    ¬ ((if (highest_bid a.bids).map Prod.fst = some u
        then s.crystals u + (top_amount a.bids : Int)
        else s.crystals u) < (amount : Int)) ∧
    (match highest_bid a.bids with
     | some c => c.2 < amount
     | none => a.min_price ≤ amount) := by
  by_cases hfund : (if (highest_bid a.bids).map Prod.fst = some u
      then s.crystals u + (top_amount a.bids : Int)
      else s.crystals u) < (amount : Int)
  · rw [bid_core_insufficient hfund] at h
    cases h
  · refine ⟨hfund, ?_⟩
    cases hcur : highest_bid a.bids with
    | none =>
      by_contra hlow
      have hfund2 : ¬ (s.crystals u < (amount : Int)) := by
        rw [hcur] at hfund
        simpa using hfund
      rw [bid_core_too_low_none hcur hfund2 (by omega)] at h
      cases h
    | some c =>
      by_contra hlow
      have hfund2 : ¬ ((if c.1 = u then s.crystals u + (c.2 : Int)
          else s.crystals u) < (amount : Int)) := by
        rw [hcur] at hfund
        simpa [top_amount, hcur] using hfund
      rw [bid_core_too_low_some hcur hfund2 (by omega)] at h
      cases h

theorem strictbids_append {U : Nat} {l : List (Fin U × Nat)} {u : Fin U}
    {amt : Nat} (hsb : StrictBids l) (h : ∀ b ∈ l, b.2 < amt) :
    StrictBids (l ++ [(u, amt)]) := by
  unfold StrictBids at hsb ⊢
  rw [List.pairwise_append]
  refine ⟨hsb, List.pairwise_singleton _ _, ?_⟩
  intro x hx y hy
  rcases List.mem_singleton.mp hy with rfl
  exact h x hx

/-- Shape of the state written by every accepted bid: the new ledger row,
the reset deadline, and some rearrangement `crys` of the wallets whose sum
dropped by exactly the offered amount minus the previously escrowed one. -/
theorem accept_state_spec {U W : Nat} (s s2 : Db U W) (u : Fin U)
    (aid : Nat) (a a1 : Auction U W) (crys : Fin U → Int) (amount t : Nat)
    (ha : s.auctions[aid]? = some a) (hact : a.active = true) (hw : Wf s)
    (ha1 : a1 = { a with bids := a.bids ++ [(u, amount)],
                         end_iso := t + BID_TIMEOUT_SECONDS })
    (hs2 : s2 = { s with crystals := crys,
                         auctions := s.auctions.set aid a1 })
    (hsum : ∑ v, crys v =
      (∑ v, s.crystals v) - (amount : Int) + (top_amount a.bids : Int))
    (htop2 : top_amount (a.bids ++ [(u, amount)]) = amount)
    (hbound : ∀ b ∈ a.bids, b.2 < amount) :
    Wf s2 ∧ totalFunds s2 = totalFunds s ∧
      (∀ w, itemTotal s2 w = itemTotal s w) ∧
      s2.waifu_cards = s.waifu_cards := by
  have hl := getq_lt ha
  have hget : s.auctions.get ⟨aid, hl⟩ = a := getq_get ha hl
  have hwa : WfA a := hw a (mem_of_getq ha)
  subst hs2
  refine ⟨?_, ?_, ?_, rfl⟩
  · rw [wf_index]
    intro j b hb
    by_cases hj : aid = j
    · subst hj
      change (s.auctions.set aid a1)[aid]? = some b at hb
      rw [List.getElem?_set_self hl] at hb
      injection hb with hb
      subst hb
      subst ha1
      exact ⟨fun h2 => hwa.1 h2, fun h2 => hwa.2.1 h2,
        strictbids_append hwa.2.2 hbound⟩
    · change (s.auctions.set aid a1)[j]? = some b at hb
      rw [List.getElem?_set_ne hj] at hb
      exact (wf_index.mp hw) j b hb
  · unfold totalFunds totalCrystals escrowSum
    change (∑ v, crys v) + sumBy (s.auctions.set aid a1) _ = _
    rw [sumBy_set _ s.auctions aid _ hl, hget, hsum, ha1]
    simp [hact, htop2]
  · intro w
    unfold itemTotal heldCount inFlight
    change (∑ v, (s.user_waifus v w : Int)) +
      sumBy (s.auctions.set aid a1) _ = _
    rw [sumBy_set _ s.auctions aid _ hl, hget, ha1]
    simp

/-- Every `/bid` invocation preserves well-formedness, total funds, item
counts and the card table, whatever its outcome. -/
theorem bid_handler_spec {U W : Nat} (s : Db U W) (u : Fin U)
    (aid amount t : Nat) (hw : Wf s) :
    Wf (bid_handler s u aid amount t).2 ∧
    totalFunds (bid_handler s u aid amount t).2 = totalFunds s ∧
    (∀ w, itemTotal (bid_handler s u aid amount t).2 w = itemTotal s w) ∧
    (bid_handler s u aid amount t).2.waifu_cards = s.waifu_cards := by
  cases ha : s.auctions[aid]? with
  | none =>
    rw [bid_handler_eq_not_found ha]
    exact ⟨hw, rfl, fun w => rfl, rfl⟩
  | some a =>
    by_cases hact : a.active = false
    · rw [bid_handler_eq_not_active ha hact]
      exact ⟨hw, rfl, fun w => rfl, rfl⟩
    · have hact2 : a.active = true := by
        cases h2 : a.active with
        | false => exact absurd h2 hact
        | true => rfl
      by_cases hexp : a.end_iso ≤ t
      · rw [bid_handler_eq_expired ha hact2 hexp]
        obtain ⟨q1, q2, q3, q4, _⟩ := finalize_spec s t hw
        exact ⟨q1, q2, q3, q4⟩
      · rw [bid_handler_eq_core ha hact2 (by omega)]
        cases hcur : highest_bid a.bids with
        | some c =>
          by_cases hcu : c.1 = u
          · by_cases hfund : s.crystals u + (c.2 : Int) < (amount : Int)
            · rw [bid_core_insufficient
                (by simp only [hcur, top_amount, Option.map_some',
                      Option.some.injEq, hcu, if_pos]
                    exact hfund)]
              exact ⟨hw, rfl, fun w => rfl, rfl⟩
            · by_cases hhigh : amount ≤ c.2
              · rw [bid_core_too_low_some hcur (by simpa [hcu] using hfund) hhigh]
                exact ⟨hw, rfl, fun w => rfl, rfl⟩
              · rw [bid_core_accept_self hcur hcu hfund (by omega)]
                exact accept_state_spec s _ u aid a _ _ amount t ha hact2 hw
                  rfl rfl
                  (by rw [sum_add_crystals, ← highest_bid_amount hcur]; ring)
                  (top_amount_append_gt
                    (by rw [← highest_bid_amount hcur]; omega))
                  (fun b hb => lt_of_le_of_lt (le_top_amount hb)
                    (by rw [← highest_bid_amount hcur]; omega))
          · by_cases hfund : s.crystals u < (amount : Int)
            · rw [bid_core_insufficient
                (by simp only [hcur, top_amount, Option.map_some',
                      Option.some.injEq]
                    rw [if_neg hcu]
                    exact hfund)]
              exact ⟨hw, rfl, fun w => rfl, rfl⟩
            · by_cases hhigh : amount ≤ c.2
              · rw [bid_core_too_low_some hcur (by simpa [hcu] using hfund) hhigh]
                exact ⟨hw, rfl, fun w => rfl, rfl⟩
              · rw [bid_core_accept_other hcur hcu hfund (by omega)]
                exact accept_state_spec s _ u aid a _ _ amount t ha hact2 hw
                  rfl rfl
                  (by rw [sum_add_crystals, sum_add_crystals,
                        ← highest_bid_amount hcur]
                      ring)
                  (top_amount_append_gt
                    (by rw [← highest_bid_amount hcur]; omega))
                  (fun b hb => lt_of_le_of_lt (le_top_amount hb)
                    (by rw [← highest_bid_amount hcur]; omega))
        | none =>
          by_cases hfund : s.crystals u < (amount : Int)
          · rw [bid_core_insufficient
              (by simp only [hcur, top_amount, Option.map_none']
                  rw [if_neg (show ¬ (none : Option (Fin U)) = some u by simp)]
                  exact hfund)]
            exact ⟨hw, rfl, fun w => rfl, rfl⟩
          · by_cases hmin : amount < a.min_price
            · rw [bid_core_too_low_none hcur hfund hmin]
              exact ⟨hw, rfl, fun w => rfl, rfl⟩
            · have hnil := highest_bid_eq_none.mp hcur
              rw [bid_core_accept_none hcur hfund (by omega)]
              exact accept_state_spec s _ u aid a _ _ amount t ha hact2 hw
                rfl rfl
                (by rw [sum_add_crystals]
                    simp [top_amount, hcur]
                    ring)
                (by rw [hnil]; rfl)
                (by rw [hnil]; intro b hb; cases hb)

/-! Case equations for the auction-creation handler. -/

theorem auction_handler_eq_not_owned {U W : Nat} {s : Db U W} {u : Fin U}
    {w : Fin W} {mp t : Nat} (h : s.user_waifus u w = 0) :
    auction_handler s u w mp t = (.not_owned, s) := by
  unfold auction_handler
  rw [if_pos h]

theorem auction_handler_eq_bug {U W : Nat} {s : Db U W} {u : Fin U}
    {w : Fin W} {mp t : Nat} (h : ¬ s.user_waifus u w = 0)
    (hc : s.waifu_cards w = false) :
    auction_handler s u w mp t = (.card_not_found_sql_error,
      { s with user_waifus := decInv s.user_waifus u w }) := by
  unfold auction_handler
  rw [if_neg h, if_pos hc]

theorem auction_handler_eq_ok {U W : Nat} {s : Db U W} {u : Fin U}
    {w : Fin W} {mp t : Nat} (h : ¬ s.user_waifus u w = 0)
    (hc : s.waifu_cards w = true) :
    auction_handler s u w mp t = (.ok s.auctions.length,
      { s with user_waifus := decInv s.user_waifus u w,
               auctions := s.auctions ++
                 [{ waifu_id := w, seller_id := u, start_iso := t,
                    end_iso := t + BID_TIMEOUT_SECONDS, min_price := mp,
                    active := true, winner_id := none, final_price := none,
                    transferred := false, bids := [] }] }) := by
  unfold auction_handler
  rw [if_neg h, if_neg (by simp [hc])]

/-- Every `/auction` invocation preserves well-formedness, total funds and
the card table; it preserves item counts provided the card snapshot row
exists (without it, the broken rollback destroys the reserved copy). -/
theorem auction_handler_spec {U W : Nat} (s : Db U W) (u : Fin U)
    (w : Fin W) (mp t : Nat) (hw : Wf s) :
    Wf (auction_handler s u w mp t).2 ∧
    totalFunds (auction_handler s u w mp t).2 = totalFunds s ∧
    (auction_handler s u w mp t).2.waifu_cards = s.waifu_cards ∧
    (s.waifu_cards w = true →
      ∀ w2, itemTotal (auction_handler s u w mp t).2 w2 = itemTotal s w2) := by
  by_cases h : s.user_waifus u w = 0
  · rw [auction_handler_eq_not_owned h]
    exact ⟨hw, rfl, rfl, fun _ w2 => rfl⟩
  · cases hc : s.waifu_cards w with
    | false =>
      rw [auction_handler_eq_bug h hc]
      exact ⟨hw, rfl, rfl, fun h2 _ => Bool.noConfusion h2⟩
    | true =>
      rw [auction_handler_eq_ok h hc]
      refine ⟨?_, ?_, rfl, ?_⟩
      · intro a2 ha2
        rcases List.mem_append.mp ha2 with h2 | h2
        · exact hw a2 h2
        · rcases List.mem_singleton.mp h2 with rfl
          exact ⟨fun _ => rfl, by simp, List.Pairwise.nil⟩
      · unfold totalFunds totalCrystals escrowSum
        rw [sumBy_append]
        simp [sumBy, top_amount, highest_bid]
      · intro _ w2
        unfold itemTotal heldCount inFlight
        rw [sumBy_append, sum_decInv s.user_waifus u w w2 (by omega)]
        by_cases hww : w2 = w
        · subst hww
          simp [sumBy]
        · have hww2 : ¬ w = w2 := fun h2 => hww h2.symm
          simp [hww, hww2, sumBy]

/-- Any outcome of the bidding core either leaves the database unchanged
(a rejection) or writes the accepted-bid state: some wallet rearrangement
plus the new ledger row and the deadline reset to `t + BID_TIMEOUT_SECONDS`. -/
theorem bid_core_state {U W : Nat} (s : Db U W) (u : Fin U) (aid : Nat)
    (a : Auction U W) (amount t : Nat) :
    (bid_core s u aid a amount t).2 = s ∨
    ∃ crys, (bid_core s u aid a amount t).2 =
      { s with crystals := crys, auctions := s.auctions.set aid { a with bids := a.bids ++ [(u, amount)], end_iso := t + BID_TIMEOUT_SECONDS } } := by
  cases hcur : highest_bid a.bids with
  | some c =>
    by_cases hcu : c.1 = u
    · by_cases hfund : s.crystals u + (c.2 : Int) < (amount : Int)
      · left
        rw [bid_core_insufficient
          (by simp only [hcur, top_amount, Option.map_some',
                Option.some.injEq, hcu, if_pos]
              exact hfund)]
      · by_cases hhigh : amount ≤ c.2
        · left
          rw [bid_core_too_low_some hcur (by simpa [hcu] using hfund) hhigh]
        · right
          exact ⟨_, by rw [bid_core_accept_self hcur hcu hfund (by omega)]⟩
    · by_cases hfund : s.crystals u < (amount : Int)
      · left
        rw [bid_core_insufficient
          (by simp only [hcur, top_amount, Option.map_some',
                Option.some.injEq]
              rw [if_neg hcu]
              exact hfund)]
      · by_cases hhigh : amount ≤ c.2
        · left
          rw [bid_core_too_low_some hcur (by simpa [hcu] using hfund) hhigh]
        · right
          exact ⟨_, by rw [bid_core_accept_other hcur hcu hfund (by omega)]⟩
  | none =>
    by_cases hfund : s.crystals u < (amount : Int)
    · left
      rw [bid_core_insufficient
        (by simp only [hcur, top_amount, Option.map_none']
            rw [if_neg (show ¬ (none : Option (Fin U)) = some u by simp)]
            exact hfund)]
    · by_cases hmin : amount < a.min_price
      · left
        rw [bid_core_too_low_none hcur hfund hmin]
      · right
        exact ⟨_, by rw [bid_core_accept_none hcur hfund (by omega)]⟩

theorem applyOp_spec1 {U W : Nat} (s : Db U W) (p : Nat × Op U W)
    (hw : Wf s) :
    Wf (applyOp s p) ∧ totalFunds (applyOp s p) = totalFunds s ∧
    (applyOp s p).waifu_cards = s.waifu_cards := by
  obtain ⟨t, op⟩ := p
  cases op with
  | create u w mp =>
    obtain ⟨q1, q2, q3, _⟩ := auction_handler_spec s u w mp t hw
    exact ⟨q1, q2, q3⟩
  | bid aid u amt =>
    obtain ⟨q1, q2, _, q4⟩ := bid_handler_spec s u aid amt t hw
    exact ⟨q1, q2, q4⟩
  | sweep =>
    obtain ⟨q1, q2, _, q4, _⟩ := finalize_spec s t hw
    exact ⟨q1, q2, q4⟩
  | claim aid =>
    rw [show applyOp s (t, Op.claim aid) = (auction_claim_cb s aid).2
      from rfl, auction_claim_cb_noop s aid hw]
    exact ⟨hw, rfl, rfl⟩
  | credit aid =>
    rw [show applyOp s (t, Op.credit aid) = (auction_credit_cb s aid).2
      from rfl, auction_credit_cb_noop s aid hw]
    exact ⟨hw, rfl, rfl⟩

theorem applyOp_items {U W : Nat} (s : Db U W) (p : Nat × Op U W)
    (hw : Wf s)
    (hcard : ∀ (u : Fin U) (w : Fin W) (mp : Nat),
      p.2 = Op.create u w mp → s.waifu_cards w = true) :
    ∀ w, itemTotal (applyOp s p) w = itemTotal s w := by
  obtain ⟨t, op⟩ := p
  cases op with
  | create u w mp =>
    exact (auction_handler_spec s u w mp t hw).2.2.2 (hcard u w mp rfl)
  | bid aid u amt =>
    exact (bid_handler_spec s u aid amt t hw).2.2.1
  | sweep =>
    exact (finalize_spec s t hw).2.2.1
  | claim aid =>
    rw [show applyOp s (t, Op.claim aid) = (auction_claim_cb s aid).2
      from rfl, auction_claim_cb_noop s aid hw]
    exact fun w => rfl
  | credit aid =>
    rw [show applyOp s (t, Op.credit aid) = (auction_credit_cb s aid).2
      from rfl, auction_credit_cb_noop s aid hw]
    exact fun w => rfl

theorem run_spec1 {U W : Nat} :
    ∀ (ops : List (Nat × Op U W)) (s : Db U W), Wf s →
      Wf (run s ops) ∧ totalFunds (run s ops) = totalFunds s ∧
      (run s ops).waifu_cards = s.waifu_cards
  | [], s, hw => ⟨hw, rfl, rfl⟩
  | p :: ops, s, hw => by
    have h1 := applyOp_spec1 s p hw
    have h2 := run_spec1 ops (applyOp s p) h1.1
    refine ⟨h2.1, ?_, ?_⟩
    · show totalFunds (run (applyOp s p) ops) = totalFunds s
      rw [h2.2.1, h1.2.1]
    · show (run (applyOp s p) ops).waifu_cards = s.waifu_cards
      rw [h2.2.2, h1.2.2]

theorem run_items {U W : Nat} :
    ∀ (ops : List (Nat × Op U W)) (s : Db U W), Wf s →
      (∀ p ∈ ops, ∀ (u : Fin U) (w : Fin W) (mp : Nat),
        p.2 = Op.create u w mp → s.waifu_cards w = true) →
      ∀ w, itemTotal (run s ops) w = itemTotal s w
  | [], _, _, _, _ => rfl
  | p :: ops, s, hw, hc, w => by
    have h1 := applyOp_spec1 s p hw
    have hc1 : ∀ q ∈ ops, ∀ (u : Fin U) (w2 : Fin W) (mp : Nat),
        q.2 = Op.create u w2 mp → (applyOp s p).waifu_cards w2 = true := by
      intro q hq u w2 mp he
      rw [h1.2.2]
      exact hc q (List.mem_cons_of_mem p hq) u w2 mp he
    calc itemTotal (run s (p :: ops)) w
        = itemTotal (run (applyOp s p) ops) w := rfl
      _ = itemTotal (applyOp s p) w := run_items ops (applyOp s p) h1.1 hc1 w
      _ = itemTotal s w :=
          applyOp_items s p hw
            (fun u w2 mp he => hc p (List.mem_cons_self p ops) u w2 mp he) w

/-- One timed operation keeps every active deadline within one window of
its own instant, provided the state was within one window of the previous
instant and the clock did not go backwards. -/
theorem applyOp_endBound {U W : Nat} (s : Db U W) (p : Nat × Op U W)
    (c : Nat) (hw : Wf s) (hb : EndBound s c) (hct : c ≤ p.1) :
    EndBound (applyOp s p) p.1 := by
  obtain ⟨t, op⟩ := p
  have hct2 : c ≤ t := hct
  have hmono : ∀ a ∈ s.auctions, a.active = true →
      a.end_iso ≤ t + BID_TIMEOUT_SECONDS := by
    intro a ha hact
    have := hb a ha hact
    omega
  cases op with
  | create u w mp =>
    by_cases h : s.user_waifus u w = 0
    · rw [show applyOp s (t, Op.create u w mp) =
        (auction_handler s u w mp t).2 from rfl,
        auction_handler_eq_not_owned h]
      exact hmono
    · cases hc : s.waifu_cards w with
      | false =>
        rw [show applyOp s (t, Op.create u w mp) =
          (auction_handler s u w mp t).2 from rfl,
          auction_handler_eq_bug h hc]
        exact hmono
      | true =>
        rw [show applyOp s (t, Op.create u w mp) =
          (auction_handler s u w mp t).2 from rfl,
          auction_handler_eq_ok h hc]
        intro a2 ha2 hact2
        rcases List.mem_append.mp ha2 with h2 | h2
        · exact hmono a2 h2 hact2
        · rcases List.mem_singleton.mp h2 with rfl
          exact Nat.le.refl
  | sweep =>
    intro a2 ha2 hact2
    rcases exists_getq_of_mem ha2 with ⟨j, hj⟩
    obtain ⟨hj1, _⟩ := (finalize_spec s t hw).2.2.2.2.2.2 j a2 hj hact2
    exact hmono a2 (mem_of_getq hj1) hact2
  | claim aid =>
    rw [show applyOp s (t, Op.claim aid) = (auction_claim_cb s aid).2
      from rfl, auction_claim_cb_noop s aid hw]
    exact hmono
  | credit aid =>
    rw [show applyOp s (t, Op.credit aid) = (auction_credit_cb s aid).2
      from rfl, auction_credit_cb_noop s aid hw]
    exact hmono
  | bid aid u amt =>
    show EndBound (bid_handler s u aid amt t).2 t
    cases ha : s.auctions[aid]? with
    | none =>
      rw [bid_handler_eq_not_found ha]
      exact hmono
    | some a =>
      by_cases hact : a.active = false
      · rw [bid_handler_eq_not_active ha hact]
        exact hmono
      · have hact2 : a.active = true := by
          cases h2 : a.active with
          | false => exact absurd h2 hact
          | true => rfl
        by_cases hexp : a.end_iso ≤ t
        · rw [bid_handler_eq_expired ha hact2 hexp]
          intro a2 ha2 hact3
          rcases exists_getq_of_mem ha2 with ⟨j, hj⟩
          obtain ⟨hj1, _⟩ := (finalize_spec s t hw).2.2.2.2.2.2 j a2 hj hact3
          exact hmono a2 (mem_of_getq hj1) hact3
        · rw [bid_handler_eq_core ha hact2 (by omega)]
          rcases bid_core_state s u aid a amt t with h2 | ⟨crys, h2⟩
          · rw [h2]
            exact hmono
          · rw [h2]
            intro a2 ha2 hact3
            rcases exists_getq_of_mem ha2 with ⟨j, hj⟩
            change (s.auctions.set aid _)[j]? = some a2 at hj
            by_cases hj2 : aid = j
            · subst hj2
              rw [List.getElem?_set_self (getq_lt ha)] at hj
              injection hj with hj
              subst hj
              show t + BID_TIMEOUT_SECONDS ≤ t + BID_TIMEOUT_SECONDS
              omega
            · rw [List.getElem?_set_ne hj2] at hj
              exact hmono a2 (mem_of_getq hj) hact3

/-- The available-funds expression of the bid handler, split by the shape
of the current highest bid. -/
theorem available_eq {U W : Nat} (s : Db U W) (u : Fin U) (a : Auction U W) :
    (if (highest_bid a.bids).map Prod.fst = some u
     then s.crystals u + (top_amount a.bids : Int) else s.crystals u) =
    (match highest_bid a.bids with
     | some c => if c.1 = u then s.crystals u + (c.2 : Int) else s.crystals u
     | none => s.crystals u) := by
  cases hcur : highest_bid a.bids with
  | none => simp [top_amount, hcur]
  | some c => by_cases hcu : c.1 = u <;> simp [top_amount, hcur, hcu]

/-- C1 (amended): after one complete `finalize_expired_auctions` run at
instant `t` from a well-formed state, a second run at `t` is the identity,
and both manual recovery callbacks leave the state unchanged on every
auction id — no second fund or item movement.  (The second half of the
original claim — that a retry performs exactly the missing settlement
effect — fails because both effects share the single `transferred`
marker: see the counterexample.) -/
theorem settlement_idempotent {U W : Nat} (s : Db U W) (t : Nat)
    (hw : Wf s) :
    finalize_expired_auctions (finalize_expired_auctions s t) t =
      finalize_expired_auctions s t ∧
    (∀ aid : Nat, (auction_claim_cb (finalize_expired_auctions s t) aid).2 =
      finalize_expired_auctions s t) ∧
    (∀ aid : Nat, (auction_credit_cb (finalize_expired_auctions s t) aid).2 =
      finalize_expired_auctions s t) :=
  ⟨finalize_idem s t hw,
   fun aid => auction_claim_cb_noop _ aid (finalize_spec s t hw).1,
   fun aid => auction_credit_cb_noop _ aid (finalize_spec s t hw).1⟩

/-- C1 witness: a concrete expired auction with a winning bid; the second
sweep and both manual callbacks are no-ops after the first sweep. -/
theorem settlement_idempotent_witness :
    Wf exExpired ∧
    finalize_expired_auctions (finalize_expired_auctions exExpired 10) 10 =
      finalize_expired_auctions exExpired 10 ∧
    (auction_claim_cb (finalize_expired_auctions exExpired 10) 0).2 =
      finalize_expired_auctions exExpired 10 ∧
    (auction_credit_cb (finalize_expired_auctions exExpired 10) 0).2 =
      finalize_expired_auctions exExpired 10 := by
  have h := settlement_idempotent exExpired 10 (by decide)
  exact ⟨by decide, h.1, h.2.1 0, h.2.2 0⟩

/-- C1 counterexample: `exHalf` is finished with a winner and a recorded
final price but `transferred = 0` (neither settlement effect applied).
`auction_claim_cb` applies effect (a) alone and sets the shared marker;
the subsequent `auction_credit_cb` — the manual operation for the missing
effect (b) — answers "already" and never credits the seller, and a
settlement retry also changes nothing: the claim's "a retry performs
exactly the missing one" is false. -/
theorem settlement_shared_marker_cex :
    (auction_claim_cb exHalf 0).1 = ClaimResult.claimed ∧
    (auction_claim_cb exHalf 0).2.user_waifus 1 0 = 1 ∧
    (auction_claim_cb exHalf 0).2.crystals 0 = 0 ∧
    (auction_credit_cb (auction_claim_cb exHalf 0).2 0).1 =
      CreditResult.already ∧
    (auction_credit_cb (auction_claim_cb exHalf 0).2 0).2 =
      (auction_claim_cb exHalf 0).2 ∧
    finalize_expired_auctions (auction_claim_cb exHalf 0).2 5 =
      (auction_claim_cb exHalf 0).2 := by
  decide

/-- C2: conservation of funds — across any sequence of timed engine
operations from a well-formed state, the sum of all wallet balances plus
the escrowed leading-bid amounts of active auctions is unchanged. -/
theorem conservation_of_funds {U W : Nat} (s0 : Db U W)
    (ops : List (Nat × Op U W)) (hw : Wf s0) :
    totalFunds (run s0 ops) = totalFunds s0 :=
  (run_spec1 ops s0 hw).2.1

/-- C2 witness: create an auction, escrow a winning bid, settle it. -/
theorem conservation_of_funds_witness :
    Wf exDb0 ∧
    totalFunds (run exDb0
      [(0, Op.create 0 0 50), (5, Op.bid 0 1 50), (20, Op.sweep)]) =
      totalFunds exDb0 :=
  ⟨by decide, conservation_of_funds exDb0
    [(0, Op.create 0 0 50), (5, Op.bid 0 1 50), (20, Op.sweep)] (by decide)⟩

/-- C3 (code evaluated at the failing input): user 0 owns one copy of
card 1, whose `waifu_cards` row is missing.  `CreateAuction` reserves the
copy, then the malformed compensating `INSERT OR REPLACE` (source line
208) raises an SQLite syntax error, so no auction row exists and the unit
has vanished: the held-plus-in-flight count for card 1 drops from 1 to 0,
violating the conservation-of-items claim. -/
theorem item_count_drops_on_missing_card :
    itemTotal exBug2 1 = 1 ∧
    itemTotal (run exBug2 [(0, Op.create 0 1 30)]) 1 = 0 ∧
    (run exBug2 [(0, Op.create 0 1 30)]).auctions = [] := by
  decide

/-- Supporting theorem for C3: in the absence of the creation-rollback
slip — every created item has its card snapshot row — the held-plus-in-
flight count of every card is invariant across any operation sequence. -/
theorem conservation_of_items {U W : Nat} (s0 : Db U W)
    (ops : List (Nat × Op U W)) (hw : Wf s0)
    (hcards : ∀ p ∈ ops, ∀ (u : Fin U) (w : Fin W) (mp : Nat),
      p.2 = Op.create u w mp → s0.waifu_cards w = true) :
    ∀ w, itemTotal (run s0 ops) w = itemTotal s0 w :=
  run_items ops s0 hw hcards

/-- C4 (code evaluated at the failing input): the seller owns the card but
its `waifu_cards` row is missing.  The reservation is committed, then the
rollback `INSERT OR REPLACE` of source line 208 — which carries an
unbalanced closing parenthesis — raises, so the handler aborts with the
reserved copy still deducted and no auction created: creation is not
all-or-nothing. -/
theorem create_rollback_is_broken :
    exBug.user_waifus 0 0 = 1 ∧
    (auction_handler exBug 0 0 50 0).1 =
      CreateResult.card_not_found_sql_error ∧
    (auction_handler exBug 0 0 50 0).2.user_waifus 0 0 = 0 ∧
    (auction_handler exBug 0 0 50 0).2.auctions = [] := by
  decide

/-- C5 counterexample: on `exActive` (min price 50, no bids) user 1 —
whose wallet is empty — offers 40, which is below the minimum price; the
handler rejects with `insufficient_funds`, not with the claimed
`BidTooLow(50)`, because the funds check runs before the threshold
check. -/
theorem bid_too_low_priority_cex :
    exActiveA.min_price = 50 ∧ 40 < exActiveA.min_price ∧
    (bid_handler exActive 1 0 40 10).1 = BidResult.insufficient_funds ∧
    (bid_handler exActive 1 0 40 10).1 ≠ BidResult.too_low 50 := by
  decide

/-- C5 (amended): for a bid on an existing, active, unexpired auction
whose offered amount is covered by the bidder's available funds, the bid
is accepted exactly when it beats the current highest bid (or reaches the
minimum price when there is no bid), a below-threshold bid is rejected
with `BidTooLow` carrying the current highest amount (or the minimum
price); and in every state reachable from a well-formed one the accepted
bid amounts of every auction are strictly increasing in insertion
order. -/
theorem bid_threshold :
    (∀ (U W : Nat) (s : Db U W) (u : Fin U) (aid amount t : Nat)
        (a : Auction U W),
      s.auctions[aid]? = some a → a.active = true → t < a.end_iso →
      ¬ ((if (highest_bid a.bids).map Prod.fst = some u
          then s.crystals u + (top_amount a.bids : Int)
          else s.crystals u) < (amount : Int)) →
      (((bid_handler s u aid amount t).1 = .ok) ↔
        (match highest_bid a.bids with
         | some c => c.2 < amount
         | none => a.min_price ≤ amount)) ∧
      (match highest_bid a.bids with
       | some c => amount ≤ c.2 →
          (bid_handler s u aid amount t).1 = .too_low c.2
       | none => amount < a.min_price →
          (bid_handler s u aid amount t).1 = .too_low a.min_price)) ∧
    (∀ (U W : Nat) (s0 : Db U W) (ops : List (Nat × Op U W)), Wf s0 →
      ∀ a ∈ (run s0 ops).auctions, StrictBids a.bids) := by
  constructor
  · intro U W s u aid amount t a ha hact hlive hfund
    rw [bid_handler_eq_core ha hact hlive]
    rw [available_eq] at hfund
    cases hcur : highest_bid a.bids with
    | none =>
      simp only [hcur] at hfund
      refine ⟨⟨fun hok => ?_, fun hth => ?_⟩, fun hlow => ?_⟩
      · have h2 := (bid_core_ok_inv hok).2
        show a.min_price ≤ amount
        simpa [hcur] using h2
      · show (bid_core s u aid a amount t).1 = .ok
        rw [bid_core_accept_none hcur hfund hth]
      · show (bid_core s u aid a amount t).1 = .too_low a.min_price
        rw [bid_core_too_low_none hcur hfund hlow]
    | some c =>
      simp only [hcur] at hfund
      refine ⟨⟨fun hok => ?_, fun hth => ?_⟩, fun hlow => ?_⟩
      · have h2 := (bid_core_ok_inv hok).2
        show c.2 < amount
        simpa [hcur] using h2
      · show (bid_core s u aid a amount t).1 = .ok
        by_cases hcu : c.1 = u
        · rw [bid_core_accept_self hcur hcu
            (by rw [if_pos hcu] at hfund; exact hfund) hth]
        · rw [bid_core_accept_other hcur hcu
            (by rw [if_neg hcu] at hfund; exact hfund) hth]
      · show (bid_core s u aid a amount t).1 = .too_low c.2
        rw [bid_core_too_low_some hcur hfund hlow]
  · intro U W s0 ops hw a ha
    exact ((run_spec1 ops s0 hw).1 a ha).2.2

/-- C5 witness: on the live auction led at 50, a funded 60 bid is
accepted and a funded 40 bid is rejected with `BidTooLow(50)`. -/
theorem bid_threshold_witness :
    (bid_handler exLive 2 0 60 95).1 = BidResult.ok ∧
    (bid_handler exLive 2 0 40 95).1 = BidResult.too_low 50 ∧
    StrictBids [((1 : Fin 3), 50), (2, 60)] := by
  have h1 := (bid_threshold.1 3 1 exLive 2 0 60 95 exLiveA
    (by decide) (by decide) (by decide) (by decide)).1
  have h2 := (bid_threshold.1 3 1 exLive 2 0 40 95 exLiveA
    (by decide) (by decide) (by decide) (by decide)).2
  have h3 := bid_threshold.2 3 1 exLive [(95, Op.bid 0 2 60)] (by decide)
  refine ⟨h1.mpr (show (50 : Nat) < 60 by decide), h2 (show 40 ≤ 50 by decide), ?_⟩
  exact h3 { waifu_id := 0, seller_id := 0, start_iso := 0, end_iso := 105, min_price := 10, active := true, winner_id := none, final_price := none, transferred := false, bids := [(1, 50), (2, 60)] } (by decide)

theorem bid_core_ok_state {U W : Nat} (s : Db U W) (u : Fin U) (aid : Nat)
    (a : Auction U W) (amount t : Nat)
    (h : (bid_core s u aid a amount t).1 = .ok) :
    ∃ crys, (bid_core s u aid a amount t).2 =
      { s with crystals := crys, auctions := s.auctions.set aid { a with bids := a.bids ++ [(u, amount)], end_iso := t + BID_TIMEOUT_SECONDS } } := by
  cases hcur : highest_bid a.bids with
  | some c =>
    by_cases hcu : c.1 = u
    · by_cases hfund : s.crystals u + (c.2 : Int) < (amount : Int)
      · rw [bid_core_insufficient
          (by simp only [hcur, top_amount, Option.map_some',
                Option.some.injEq, hcu, if_pos]
              exact hfund)] at h
        exact BidResult.noConfusion h
      · by_cases hhigh : amount ≤ c.2
        · rw [bid_core_too_low_some hcur (by simpa [hcu] using hfund) hhigh] at h
          exact BidResult.noConfusion h
        · exact ⟨_, by rw [bid_core_accept_self hcur hcu hfund (by omega)]⟩
    · by_cases hfund : s.crystals u < (amount : Int)
      · rw [bid_core_insufficient
          (by simp only [hcur, top_amount, Option.map_some',
                Option.some.injEq]
              rw [if_neg hcu]
              exact hfund)] at h
        exact BidResult.noConfusion h
      · by_cases hhigh : amount ≤ c.2
        · rw [bid_core_too_low_some hcur (by simpa [hcu] using hfund) hhigh] at h
          exact BidResult.noConfusion h
        · exact ⟨_, by rw [bid_core_accept_other hcur hcu hfund (by omega)]⟩
  | none =>
    by_cases hfund : s.crystals u < (amount : Int)
    · rw [bid_core_insufficient
        (by simp only [hcur, top_amount, Option.map_none']
            rw [if_neg (show ¬ (none : Option (Fin U)) = some u by simp)]
            exact hfund)] at h
      exact BidResult.noConfusion h
    · by_cases hmin : amount < a.min_price
      · rw [bid_core_too_low_none hcur hfund hmin] at h
        exact BidResult.noConfusion h
      · exact ⟨_, by rw [bid_core_accept_none hcur hfund (by omega)]⟩

/-- C6: escrow-aware funds movement on a live auction.  When the bidder
already leads with amount `pa`, sufficiency is the delta check
`amount - pa ≤ balance` and acceptance debits exactly the delta, touching
no other wallet; when someone else leads, acceptance requires the full
amount, debits it in full and refunds exactly `pa` to the previous
leader; with no leading bid the full amount is debited. -/
theorem escrow_aware_movement {U W : Nat} (s : Db U W) (u : Fin U)
    (aid amount t : Nat) (a : Auction U W)
    (ha : s.auctions[aid]? = some a) (hact : a.active = true)
    (hlive : t < a.end_iso) :
    (∀ (pb : Fin U) (pa : Nat), highest_bid a.bids = some (pb, pa) →
      pb = u →
      (((bid_handler s u aid amount t).1 = .ok) ↔
        ((amount : Int) - pa ≤ s.crystals u ∧ pa < amount)) ∧
      ((bid_handler s u aid amount t).1 = .ok →
        (bid_handler s u aid amount t).2.crystals u =
          s.crystals u - ((amount : Int) - pa) ∧
        (∀ v, v ≠ u →
          (bid_handler s u aid amount t).2.crystals v = s.crystals v))) ∧
    (∀ (pb : Fin U) (pa : Nat), highest_bid a.bids = some (pb, pa) →
      ¬ pb = u →
      ((bid_handler s u aid amount t).1 = .ok →
        (amount : Int) ≤ s.crystals u ∧
        (bid_handler s u aid amount t).2.crystals u =
          s.crystals u - amount ∧
        (bid_handler s u aid amount t).2.crystals pb =
          s.crystals pb + pa)) ∧
    (highest_bid a.bids = none →
      (bid_handler s u aid amount t).1 = .ok →
      (amount : Int) ≤ s.crystals u ∧
      (bid_handler s u aid amount t).2.crystals u =
        s.crystals u - amount) := by
  rw [bid_handler_eq_core ha hact hlive]
  refine ⟨?_, ?_, ?_⟩
  · intro pb pa hcur hpb
    have hc1 : ((pb, pa) : Fin U × Nat).1 = u := hpb
    constructor
    · constructor
      · intro hok
        obtain ⟨hfund, hth⟩ := bid_core_ok_inv hok
        rw [available_eq] at hfund
        simp only [hcur] at hfund hth
        rw [if_pos hc1] at hfund
        exact ⟨by omega, hth⟩
      · rintro ⟨hfund, hhigh⟩
        rw [bid_core_accept_self hcur hc1 (by omega) hhigh]
    · intro hok
      obtain ⟨hfund0, hth⟩ := bid_core_ok_inv hok
      rw [available_eq] at hfund0
      simp only [hcur] at hfund0 hth
      rw [if_pos hc1] at hfund0
      have hhigh : pa < amount := hth
      rw [bid_core_accept_self hcur hc1 hfund0 hhigh]
      refine ⟨?_, fun v hv => ?_⟩
      · show add_crystals s.crystals u (-((amount : Int) - (pa : Int))) u =
          s.crystals u - ((amount : Int) - pa)
        rw [add_crystals_self]
        ring
      · exact add_crystals_ne s.crystals _ hv
  · intro pb pa hcur hpb hok
    obtain ⟨hfund0, hth⟩ := bid_core_ok_inv hok
    rw [available_eq] at hfund0
    simp only [hcur] at hfund0 hth
    rw [if_neg hpb] at hfund0
    have hhigh : pa < amount := hth
    refine ⟨by omega, ?_, ?_⟩
    · rw [bid_core_accept_other hcur hpb hfund0 hhigh]
      show add_crystals (add_crystals s.crystals u (-(amount : Int))) pb
        (pa : Int) u = s.crystals u - amount
      rw [add_crystals_ne _ _ (fun h2 => hpb h2.symm), add_crystals_self]
      ring
    · rw [bid_core_accept_other hcur hpb hfund0 hhigh]
      show add_crystals (add_crystals s.crystals u (-(amount : Int))) pb
        (pa : Int) pb = s.crystals pb + pa
      rw [add_crystals_self, add_crystals_ne _ _ hpb]
  · intro hcur hok
    obtain ⟨hfund0, hth⟩ := bid_core_ok_inv hok
    rw [available_eq] at hfund0
    simp only [hcur] at hfund0 hth
    refine ⟨by omega, ?_⟩
    rw [bid_core_accept_none hcur hfund0 hth]
    show add_crystals s.crystals u (-(amount : Int)) u =
      s.crystals u - amount
    rw [add_crystals_self]
    ring

/-- C6 witness: user 2 (60 crystals) overbids the leader (user 1 at 50)
with 60: the full 60 is debited and the 50 are refunded. -/
theorem escrow_aware_movement_witness :
    (60 : Int) ≤ exLive.crystals 2 ∧
    (bid_handler exLive 2 0 60 95).2.crystals 2 = exLive.crystals 2 - 60 ∧
    (bid_handler exLive 2 0 60 95).2.crystals 1 = exLive.crystals 1 + 50 := by
  have h := (escrow_aware_movement exLive 2 0 60 95 exLiveA
    (by decide) (by decide) (by decide)).2.1 1 50 (by decide) (by decide)
  exact h (by decide)

/-- C7: anti-snipe extension.  On a state whose active deadlines sit
within one window of the previous instant `c` (true of every reachable
state, see `applyOp_endBound`), a bid accepted at a strictly later
instant `t` resets the auction's deadline to `t + BID_TIMEOUT_SECONDS` —
the same fixed window `auction_handler` uses at creation — and that is a
strict increase over the previous deadline. -/
theorem anti_snipe_extension {U W : Nat} (s : Db U W) (c t aid : Nat)
    (u : Fin U) (amount : Nat) (a : Auction U W)
    (hb : EndBound s c) (hct : c < t)
    (ha : s.auctions[aid]? = some a)
    (hacc : (bid_handler s u aid amount t).1 = .ok) :
    ∃ a2, (bid_handler s u aid amount t).2.auctions[aid]? = some a2 ∧
      a2.end_iso = t + BID_TIMEOUT_SECONDS ∧ a.end_iso < a2.end_iso := by
  by_cases hact : a.active = false
  · rw [bid_handler_eq_not_active ha hact] at hacc
    exact BidResult.noConfusion hacc
  · have hact2 : a.active = true := by
      cases h2 : a.active with
      | false => exact absurd h2 hact
      | true => rfl
    by_cases hexp : a.end_iso ≤ t
    · rw [bid_handler_eq_expired ha hact2 hexp] at hacc
      exact BidResult.noConfusion hacc
    · rw [bid_handler_eq_core ha hact2 (by omega)] at hacc ⊢
      obtain ⟨crys, h2⟩ := bid_core_ok_state s u aid a amount t hacc
      rw [h2]
      refine ⟨{ a with bids := a.bids ++ [(u, amount)], end_iso := t + BID_TIMEOUT_SECONDS }, ?_, rfl, ?_⟩
      · change (s.auctions.set aid _)[aid]? = _
        rw [List.getElem?_set_self (getq_lt ha)]
      · have := hb a (mem_of_getq ha) hact2
        show a.end_iso < t + BID_TIMEOUT_SECONDS
        omega

/-- C7 witness: with the window anchored at instant 90, a bid at 95 on
the live auction (deadline 100) pushes the deadline to 105. -/
theorem anti_snipe_extension_witness :
    EndBound exLive 90 ∧
    (∃ a2, (bid_handler exLive 2 0 60 95).2.auctions[0]? = some a2 ∧
      a2.end_iso = 95 + BID_TIMEOUT_SECONDS ∧ exLiveA.end_iso < a2.end_iso) :=
  ⟨by decide, anti_snipe_extension exLive 90 95 0 2 60 exLiveA
    (by decide) (by decide) (by decide) (by decide)⟩

/-- C8 (amended): a bid arriving at or after the deadline of an active
auction is rejected with `AuctionExpired` whatever the amount; no bid row
is inserted anywhere, and the only state change is the finalization sweep
the rejection branch itself triggers (so settlement transfers of expired
auctions do occur during the rejected call). -/
theorem late_bid_rejected {U W : Nat} (s : Db U W) (u : Fin U)
    (aid amount t : Nat) (a : Auction U W)
    (ha : s.auctions[aid]? = some a) (hact : a.active = true)
    (hexp : a.end_iso ≤ t) :
    (bid_handler s u aid amount t).1 = .expired ∧
    (bid_handler s u aid amount t).2 = finalize_expired_auctions s t ∧
    (Wf s → ∀ (j : Nat),
      ((bid_handler s u aid amount t).2.auctions[j]?).map Auction.bids =
        (s.auctions[j]?).map Auction.bids) := by
  rw [bid_handler_eq_expired ha hact hexp]
  exact ⟨rfl, rfl, fun hw j => (finalize_spec s t hw).2.2.2.2.2.1 j⟩

/-- C8 counterexample: a late 100 bid on the expired auction led at 50 is
rejected, yet the seller's balance moves from 0 to 50 during the call —
the rejection branch finalizes the auction and credits the seller, so
"no funds move" is false as stated. -/
theorem late_bid_moves_funds_cex :
    exLed.crystals 0 = 0 ∧ exLedA.end_iso ≤ 10 ∧
    (bid_handler exLed 2 0 100 10).1 = BidResult.expired ∧
    (bid_handler exLed 2 0 100 10).2.crystals 0 = 50 := by
  decide

/-- C8 witness: the late bid on `exLed` is rejected and the state equals
exactly the finalization sweep of the pre-call state. -/
theorem late_bid_rejected_witness :
    (bid_handler exLed 2 0 100 10).1 = BidResult.expired ∧
    (bid_handler exLed 2 0 100 10).2 = finalize_expired_auctions exLed 10 := by
  have h := late_bid_rejected exLed 2 0 100 10 exLedA
    (by decide) (by decide) (by decide)
  exact ⟨h.1, h.2.1⟩

/-- C9: successful creation inserts a row with `status = 'active'`,
`start_iso = now`, `end_iso = now + BID_TIMEOUT_SECONDS` (the engine's
fixed duration), `transferred = 0`, no winner and no final price, hands
the caller the new row id, and moves no wallet funds. -/
theorem create_auction_postcondition {U W : Nat} (s : Db U W) (u : Fin U)
    (w : Fin W) (mp t : Nat) (hown : ¬ s.user_waifus u w = 0)
    (hcard : s.waifu_cards w = true) :
    (auction_handler s u w mp t).1 = .ok s.auctions.length ∧
    (auction_handler s u w mp t).2.auctions[s.auctions.length]? =
      some { waifu_id := w, seller_id := u, start_iso := t, end_iso := t + BID_TIMEOUT_SECONDS, min_price := mp, active := true, winner_id := none, final_price := none, transferred := false, bids := [] } ∧
    (auction_handler s u w mp t).2.crystals = s.crystals := by
  rw [auction_handler_eq_ok hown hcard]
  refine ⟨rfl, ?_, rfl⟩
  change (s.auctions ++ [_])[s.auctions.length]? = _
  rw [List.getElem?_append_right (Nat.le_refl _)]
  simp

/-- C9 witness: creating an auction on `exDb0` returns id 0 and writes
the expected row without touching any wallet. -/
theorem create_auction_postcondition_witness :
    (auction_handler exDb0 0 0 50 7).1 = CreateResult.ok 0 ∧
    (auction_handler exDb0 0 0 50 7).2.auctions[0]? =
      some { waifu_id := 0, seller_id := 0, start_iso := 7, end_iso := 7 + BID_TIMEOUT_SECONDS, min_price := 50, active := true, winner_id := none, final_price := none, transferred := false, bids := [] } ∧
    (auction_handler exDb0 0 0 50 7).2.crystals = exDb0.crystals :=
  create_auction_postcondition exDb0 0 0 50 7 (by decide) (by decide)

/-- C10: the funds check runs before the threshold check, so a bid that
is both unaffordable (under the handler's own availability notion) and
below the required threshold is rejected with `InsufficientFunds`, never
with `BidTooLow`. -/
theorem insufficient_funds_checked_first {U W : Nat} (s : Db U W)
    (u : Fin U) (aid amount t : Nat) (a : Auction U W)
    (ha : s.auctions[aid]? = some a) (hact : a.active = true)
    (hlive : t < a.end_iso)
    (hpoor : (if (highest_bid a.bids).map Prod.fst = some u
        then s.crystals u + (top_amount a.bids : Int)
        else s.crystals u) < (amount : Int))
    (hlow : match highest_bid a.bids with
       | some c => amount ≤ c.2
       | none => amount < a.min_price) :
    (bid_handler s u aid amount t).1 = .insufficient_funds := by
  rw [bid_handler_eq_core ha hact hlive, bid_core_insufficient hpoor]

/-- C10 witness: the penniless user 1 offers 40 on `exActive`
(min price 50): unaffordable and below threshold, and the reply is
`insufficient_funds`. -/
theorem insufficient_funds_checked_first_witness :
    (bid_handler exActive 1 0 40 10).1 = BidResult.insufficient_funds :=
  insufficient_funds_checked_first exActive 1 0 40 10 exActiveA
    (by decide) (by decide) (by decide) (by decide)
    (show (40 : Nat) < 50 by decide)
